import Mathlib

/-
Verification development for the Maileg correspondence engine.

The Python sources are shallowly embedded over `Str := List Char`.
Python strings become `Str`; fallible code returns `Option`/`Except`-like
sum types; the Google-API side effects (calendar update, mail send) are
modelled by boolean success oracles so that the control flow around them
(in particular the order of ledger mutation versus side effects) is exact.
-/

set_option maxRecDepth 4000

abbrev Str := List Char

/-- Python `str.strip` whitespace class restricted to ASCII
    (space, tab, newline, vertical tab, form feed, carriage return). -/
def isWS (c : Char) : Bool :=
  decide (c.toNat = 32 ∨ c.toNat = 9 ∨ c.toNat = 10 ∨ c.toNat = 11 ∨ c.toNat = 12 ∨ c.toNat = 13)

/-- Python `s.strip()`: drop whitespace from both ends. -/
def pyStrip (s : Str) : Str :=
  ((s.dropWhile isWS).reverse.dropWhile isWS).reverse

/-- Python `pat in s` (substring containment), for a non-empty pattern;
    the empty pattern is always contained, as in Python. -/
def hasSub (pat : Str) : Str → Bool
  | [] => pat.isEmpty
  | c :: rest => pat.isPrefixOf (c :: rest) || hasSub pat rest

/-- Python `s.split(pat, 1)` for a non-empty `pat`: `some (before, after)`
    split at the first occurrence, `none` when `pat` does not occur. -/
def splitOnce (pat : Str) : Str → Option (Str × Str)
  | [] => none
  | c :: rest =>
    if pat ≠ [] ∧ pat.isPrefixOf (c :: rest) then some ([], (c :: rest).drop pat.length)
    else (splitOnce pat rest).map (fun p => (c :: p.1, p.2))

/-- Text before the first occurrence of `pat` (the whole string when absent):
    Python `s.split(pat, 1)[0]`. -/
def takeBefore (pat s : Str) : Str :=
  match splitOnce pat s with
  | some p => p.1
  | none => s

/-- Scanner for `pyReplace`: while `skip > 0` the characters belong to an
    already-replaced occurrence and are dropped without testing. -/
def pyReplaceAux (pat rep : Str) : Nat → Str → Str
  | _, [] => []
  | 0, c :: rest =>
    if pat.isPrefixOf (c :: rest) ∧ pat ≠ [] then
      rep ++ pyReplaceAux pat rep (pat.length - 1) rest
    else
      c :: pyReplaceAux pat rep 0 rest
  | k + 1, _ :: rest => pyReplaceAux pat rep k rest

/-- Python `s.replace(pat, rep)`: left-to-right, non-overlapping, all
    occurrences, for a non-empty `pat`. -/
def pyReplace (pat rep : Str) (s : Str) : Str := pyReplaceAux pat rep 0 s

/-- ASCII lower-casing of one character (Python `str.lower`, ASCII range). -/
def lowerChar (c : Char) : Char :=
  if 65 ≤ c.toNat ∧ c.toNat ≤ 90 then Char.ofNat (c.toNat + 32) else c

/-- ASCII upper-casing of one character. -/
def upperChar (c : Char) : Char :=
  if 97 ≤ c.toNat ∧ c.toNat ≤ 122 then Char.ofNat (c.toNat - 32) else c

def lowerStr (s : Str) : Str := s.map lowerChar

/-- Python `str.capitalize`: first character upper-cased, the rest lower-cased. -/
def pyCapitalize : Str → Str
  | [] => []
  | c :: rest => upperChar c :: lowerStr rest

/-- Python `s.split(sep)` for a single-character separator: splits on every
    occurrence, keeping empty segments. -/
def splitAllOnChar (sep : Char) : Str → List Str
  | [] => [[]]
  | c :: rest =>
    let r := splitAllOnChar sep rest
    if c = sep then [] :: r
    else
      match r with
      | h :: t => (c :: h) :: t
      | [] => [[c]]

/-- Numeric value of an ASCII digit character. -/
def dv (c : Char) : Nat := c.toNat - 48

/-- ASCII digit test (`\d` of the CPython `_strptime` regexes, ASCII range). -/
def isDig (c : Char) : Bool := decide (48 ≤ c.toNat ∧ c.toNat ≤ 57)

/-- The ASCII digit character for `n % 10`. -/
def digitChar (n : Nat) : Char := Char.ofNat (48 + n % 10)

/-- A naive datetime as produced by `UtilityFunctions.string_to_datetime`
    (whole seconds, no timezone, no sub-second part). -/
structure DT where
  year : Nat
  month : Nat
  day : Nat
  hour : Nat
  minute : Nat
  second : Nat
deriving DecidableEq, Repr

/-- Python `datetime` comparison (`<`), lexicographic on the naive fields. -/
def DT.lt (a b : DT) : Bool :=
  decide (a.year < b.year ∨ (a.year = b.year ∧ (a.month < b.month ∨ (a.month = b.month ∧
    (a.day < b.day ∨ (a.day = b.day ∧ (a.hour < b.hour ∨ (a.hour = b.hour ∧
    (a.minute < b.minute ∨ (a.minute = b.minute ∧ a.second < b.second))))))))))

/-- Intermediate state of one `strptime` run: CPython defaults are
    year 1900, month 1, day 1, midnight, no timezone. -/
structure RawParse where
  year : Nat
  month : Nat
  day : Nat
  hour : Nat
  minute : Nat
  second : Nat
  zoneMin : Option Int
deriving DecidableEq, Repr

def initRaw : RawParse := ⟨1900, 1, 1, 0, 0, 0, none⟩

def RawParse.toDT (r : RawParse) : DT := ⟨r.year, r.month, r.day, r.hour, r.minute, r.second⟩

def DT.toRaw (d : DT) : RawParse := ⟨d.year, d.month, d.day, d.hour, d.minute, d.second, none⟩

/-- `%Y`: exactly four ASCII digits (CPython regex `\d\d\d\d`). -/
def parse4Y : Str → Option (Nat × Str)
  | c1 :: c2 :: c3 :: c4 :: rest =>
    if isDig c1 = true ∧ isDig c2 = true ∧ isDig c3 = true ∧ isDig c4 = true then
      some (1000 * dv c1 + 100 * dv c2 + 10 * dv c3 + dv c4, rest)
    else none
  | _ => none

/-- `%m`: CPython regex `1[0-2]|0[1-9]|[1-9]`, alternatives in order. -/
def parseMonth2 : Str → Option (Nat × Str)
  | c1 :: c2 :: rest =>
    if c1.toNat = 49 ∧ 48 ≤ c2.toNat ∧ c2.toNat ≤ 50 then some (10 + dv c2, rest)
    else if c1.toNat = 48 ∧ 49 ≤ c2.toNat ∧ c2.toNat ≤ 57 then some (dv c2, rest)
    else if 49 ≤ c1.toNat ∧ c1.toNat ≤ 57 then some (dv c1, c2 :: rest)
    else none
  | [c1] => if 49 ≤ c1.toNat ∧ c1.toNat ≤ 57 then some (dv c1, []) else none
  | [] => none

/-- `%d`: CPython regex `3[01]|[1-2]\d|0[1-9]|[1-9]`. -/
def parseDay2 : Str → Option (Nat × Str)
  | c1 :: c2 :: rest =>
    if c1.toNat = 51 ∧ 48 ≤ c2.toNat ∧ c2.toNat ≤ 49 then some (30 + dv c2, rest)
    else if 49 ≤ c1.toNat ∧ c1.toNat ≤ 50 ∧ isDig c2 = true then some (10 * dv c1 + dv c2, rest)
    else if c1.toNat = 48 ∧ 49 ≤ c2.toNat ∧ c2.toNat ≤ 57 then some (dv c2, rest)
    else if 49 ≤ c1.toNat ∧ c1.toNat ≤ 57 then some (dv c1, c2 :: rest)
    else none
  | [c1] => if 49 ≤ c1.toNat ∧ c1.toNat ≤ 57 then some (dv c1, []) else none
  | [] => none

/-- `%H`: CPython regex `2[0-3]|[0-1]\d|\d`. -/
def parseHour2 : Str → Option (Nat × Str)
  | c1 :: c2 :: rest =>
    if c1.toNat = 50 ∧ 48 ≤ c2.toNat ∧ c2.toNat ≤ 51 then some (20 + dv c2, rest)
    else if 48 ≤ c1.toNat ∧ c1.toNat ≤ 49 ∧ isDig c2 = true then some (10 * dv c1 + dv c2, rest)
    else if isDig c1 = true then some (dv c1, c2 :: rest)
    else none
  | [c1] => if isDig c1 = true then some (dv c1, []) else none
  | [] => none

/-- `%M`: CPython regex `[0-5]\d|\d`. -/
def parseMin2 : Str → Option (Nat × Str)
  | c1 :: c2 :: rest =>
    if 48 ≤ c1.toNat ∧ c1.toNat ≤ 53 ∧ isDig c2 = true then some (10 * dv c1 + dv c2, rest)
    else if isDig c1 = true then some (dv c1, c2 :: rest)
    else none
  | [c1] => if isDig c1 = true then some (dv c1, []) else none
  | [] => none

/-- `%S`: CPython regex `6[0-1]|[0-5]\d|\d` (leap seconds are accepted by the
    regex and rejected later by the `datetime` constructor). -/
def parseSec2 : Str → Option (Nat × Str)
  | c1 :: c2 :: rest =>
    if c1.toNat = 54 ∧ 48 ≤ c2.toNat ∧ c2.toNat ≤ 49 then some (60 + dv c2, rest)
    else if 48 ≤ c1.toNat ∧ c1.toNat ≤ 53 ∧ isDig c2 = true then some (10 * dv c1 + dv c2, rest)
    else if isDig c1 = true then some (dv c1, c2 :: rest)
    else none
  | [c1] => if isDig c1 = true then some (dv c1, []) else none
  | [] => none

/-- `%a` weekday abbreviations of the C locale, lower-cased. -/
def dowAbbrevs : List Str :=
  [['m', 'o', 'n'], ['t', 'u', 'e'], ['w', 'e', 'd'], ['t', 'h', 'u'],
   ['f', 'r', 'i'], ['s', 'a', 't'], ['s', 'u', 'n']]

/-- `%a`: one of the weekday abbreviations, case-insensitively; the value is
    parsed but never used by the formats at hand. -/
def parseDow : Str → Option Str
  | c1 :: c2 :: c3 :: rest =>
    if [lowerChar c1, lowerChar c2, lowerChar c3] ∈ dowAbbrevs then some rest else none
  | _ => none

/-- Month number for a lower-cased C-locale month abbreviation. -/
def monValue (s : Str) : Option Nat :=
  if s = ['j', 'a', 'n'] then some 1
  else if s = ['f', 'e', 'b'] then some 2
  else if s = ['m', 'a', 'r'] then some 3
  else if s = ['a', 'p', 'r'] then some 4
  else if s = ['m', 'a', 'y'] then some 5
  else if s = ['j', 'u', 'n'] then some 6
  else if s = ['j', 'u', 'l'] then some 7
  else if s = ['a', 'u', 'g'] then some 8
  else if s = ['s', 'e', 'p'] then some 9
  else if s = ['o', 'c', 't'] then some 10
  else if s = ['n', 'o', 'v'] then some 11
  else if s = ['d', 'e', 'c'] then some 12
  else none

/-- `%b`: a month abbreviation, case-insensitively. -/
def parseMonName : Str → Option (Nat × Str)
  | c1 :: c2 :: c3 :: rest =>
    (monValue [lowerChar c1, lowerChar c2, lowerChar c3]).map (fun v => (v, rest))
  | _ => none

/-- A literal whitespace in a `strptime` format: `\s+` (one or more). -/
def parseWS1 : Str → Option Str
  | c :: rest => if isWS c = true then some (rest.dropWhile (fun x => isWS x)) else none
  | [] => none

/-- Optional fractional part of a `%z` seconds group: `(\.\d{1,6})?`. -/
def parseZoneFrac (s : Str) : Str :=
  match s with
  | '.' :: r =>
    if (r.takeWhile (fun c => isDig c)).length ≥ 1 then
      r.drop (min (r.takeWhile (fun c => isDig c)).length 6)
    else s
  | _ => s

/-- Optional seconds of a `%z` offset: `(:?[0-5]\d(\.\d{1,6})?)?`. -/
def parseZoneSeconds (s : Str) : Str :=
  match s with
  | ':' :: a :: b :: r =>
    if 48 ≤ a.toNat ∧ a.toNat ≤ 53 ∧ isDig b = true then parseZoneFrac r else s
  | a :: b :: r =>
    if 48 ≤ a.toNat ∧ a.toNat ≤ 53 ∧ isDig b = true then parseZoneFrac r else s
  | _ => s

/-- `%z`: CPython regex `[+-]\d\d:?[0-5]\d(:?[0-5]\d(\.\d{1,6})?)?|Z`
    (the lone `Z` is case-sensitive).  An hour component above 23 would be
    rejected by the `timezone` constructor, failing the format, so it is
    rejected here. -/
def parseZone : Str → Option (Int × Str)
  | [] => none
  | c :: rest =>
    if c.toNat = 90 then some (0, rest)
    else
      match rest with
      | h1 :: h2 :: rest2 =>
        if (c.toNat = 43 ∨ c.toNat = 45) ∧ isDig h1 = true ∧ isDig h2 = true then
          let hh := 10 * dv h1 + dv h2
          let rest3 := match rest2 with
            | x :: r => if x.toNat = 58 then r else rest2
            | [] => rest2
          match rest3 with
          | m1 :: m2 :: rest4 =>
            if 48 ≤ m1.toNat ∧ m1.toNat ≤ 53 ∧ isDig m2 = true ∧ hh ≤ 23 then
              let mm := 10 * dv m1 + dv m2
              some ((if c.toNat = 45 then -(hh * 60 + mm : Int) else (hh * 60 + mm : Int)),
                    parseZoneSeconds rest4)
            else none
          | _ => none
        else none
      | _ => none

/-- Tokens of the `strptime` formats used by `string_to_datetime`. -/
inductive FTok where
  | lit (c : Char)
  | ws
  | y4
  | mon2
  | day2
  | hour2
  | min2
  | sec2
  | dowName
  | monName
  | zone
deriving DecidableEq

/-- Run a tokenised `strptime` format over the input.  The whole input must
    be consumed (CPython raises on unconverted data).  Literal characters
    match case-insensitively (the regex is compiled with `IGNORECASE`). -/
def runToks : List FTok → Str → RawParse → Option RawParse
  | [], [], st => some st
  | [], _ :: _, _ => none
  | .lit c :: ts, s, st =>
    match s with
    | c' :: rest => if lowerChar c' = lowerChar c then runToks ts rest st else none
    | [] => none
  | .ws :: ts, s, st =>
    match parseWS1 s with
    | some rest => runToks ts rest st
    | none => none
  | .y4 :: ts, s, st =>
    match parse4Y s with
    | some (v, rest) => runToks ts rest { st with year := v }
    | none => none
  | .mon2 :: ts, s, st =>
    match parseMonth2 s with
    | some (v, rest) => runToks ts rest { st with month := v }
    | none => none
  | .day2 :: ts, s, st =>
    match parseDay2 s with
    | some (v, rest) => runToks ts rest { st with day := v }
    | none => none
  | .hour2 :: ts, s, st =>
    match parseHour2 s with
    | some (v, rest) => runToks ts rest { st with hour := v }
    | none => none
  | .min2 :: ts, s, st =>
    match parseMin2 s with
    | some (v, rest) => runToks ts rest { st with minute := v }
    | none => none
  | .sec2 :: ts, s, st =>
    match parseSec2 s with
    | some (v, rest) => runToks ts rest { st with second := v }
    | none => none
  | .dowName :: ts, s, st =>
    match parseDow s with
    | some rest => runToks ts rest st
    | none => none
  | .monName :: ts, s, st =>
    match parseMonName s with
    | some (v, rest) => runToks ts rest { st with month := v }
    | none => none
  | .zone :: ts, s, st =>
    match parseZone s with
    | some (z, rest) => runToks ts rest { st with zoneMin := some z }
    | none => none

/-- Format `"%a, %d %b %Y %H:%M:%S %z"`. -/
def fmtRFC : List FTok :=
  [.dowName, .lit ',', .ws, .day2, .ws, .monName, .ws, .y4, .ws,
   .hour2, .lit ':', .min2, .lit ':', .sec2, .ws, .zone]

/-- Format `"%Y-%m-%d %H:%M:%S"`. -/
def fmtYMDsp : List FTok :=
  [.y4, .lit '-', .mon2, .lit '-', .day2, .ws, .hour2, .lit ':', .min2, .lit ':', .sec2]

/-- Format `"%Y/%m/%d %H:%M:%S"`. -/
def fmtYMDslashSp : List FTok :=
  [.y4, .lit '/', .mon2, .lit '/', .day2, .ws, .hour2, .lit ':', .min2, .lit ':', .sec2]

/-- Format `"%Y-%m-%dT%H:%M:%S"`. -/
def fmtYMDT : List FTok :=
  [.y4, .lit '-', .mon2, .lit '-', .day2, .lit 'T', .hour2, .lit ':', .min2, .lit ':', .sec2]

/-- Format `"%Y/%m/%dT%H:%M:%S"`. -/
def fmtYMDslashT : List FTok :=
  [.y4, .lit '/', .mon2, .lit '/', .day2, .lit 'T', .hour2, .lit ':', .min2, .lit ':', .sec2]

/-- Format `"%Y-%m-%d"`. -/
def fmtYMD : List FTok := [.y4, .lit '-', .mon2, .lit '-', .day2]

/-- Format `"%Y/%m/%d"`. -/
def fmtYMDslash : List FTok := [.y4, .lit '/', .mon2, .lit '/', .day2]

/-- Format `"%d/%m/%Y %H:%M:%S"`. -/
def fmtDMY : List FTok :=
  [.day2, .lit '/', .mon2, .lit '/', .y4, .ws, .hour2, .lit ':', .min2, .lit ':', .sec2]

/-- Format `"%Y-%m-%dT%H:%M:%SZ"`. -/
def fmtYMDTZ : List FTok :=
  [.y4, .lit '-', .mon2, .lit '-', .day2, .lit 'T', .hour2, .lit ':', .min2, .lit ':', .sec2, .lit 'Z']

/-- Format `"%Y-%m-%dT%H:%MZ"`. -/
def fmtYMDTMZ : List FTok :=
  [.y4, .lit '-', .mon2, .lit '-', .day2, .lit 'T', .hour2, .lit ':', .min2, .lit 'Z']

/-- Format `"%Y-%m-%dT%HZ"`. -/
def fmtYMDTHZ : List FTok :=
  [.y4, .lit '-', .mon2, .lit '-', .day2, .lit 'T', .hour2, .lit 'Z']

/-- The `formats` list of `UtilityFunctions.string_to_datetime`, in source
    order. -/
def knownFormats : List (List FTok) :=
  [fmtRFC, fmtYMDsp, fmtYMDslashSp, fmtYMDT, fmtYMDslashT, fmtYMD, fmtYMDslash,
   fmtDMY, fmtYMDTZ, fmtYMDTMZ, fmtYMDTHZ]

def isLeap (y : Nat) : Bool := decide ((y % 4 = 0 ∧ ¬ y % 100 = 0) ∨ y % 400 = 0)

def daysInMonth (y m : Nat) : Nat :=
  if m = 2 then (if isLeap y then 29 else 28)
  else if m = 4 ∨ m = 6 ∨ m = 9 ∨ m = 11 then 30 else 31

/-- The checks of the Python `datetime` constructor on the parsed fields
    (`MINYEAR = 1`, `MAXYEAR = 9999`; leap seconds rejected). -/
def rawValid (r : RawParse) : Bool :=
  decide (1 ≤ r.year ∧ r.year ≤ 9999 ∧ 1 ≤ r.month ∧ r.month ≤ 12 ∧ 1 ≤ r.day ∧
    r.day ≤ daysInMonth r.year r.month ∧ r.hour ≤ 23 ∧ r.minute ≤ 59 ∧ r.second ≤ 59)

def pad2 (n : Nat) : Str := [digitChar (n / 10), digitChar n]

def natToString4 (n : Nat) : Str :=
  [digitChar (n / 1000), digitChar (n / 100), digitChar (n / 10), digitChar n]

/-- `strftime("%Y")` on glibc: the year in decimal, unpadded below 1000
    (for 1000–9999 this is exactly the four decimal digits). -/
def yearField (y : Nat) : Str := if y < 1000 then Nat.toDigits 10 y else natToString4 y

/-- `datetime.strftime(dt, "%d/%m/%Y %H:%M:%S")` (timezone-unaware: the
    format has no `%z`). -/
def strftimeDMY (r : RawParse) : Str :=
  pad2 r.day ++ '/' :: pad2 r.month ++ '/' :: yearField r.year ++
    ' ' :: pad2 r.hour ++ ':' :: pad2 r.minute ++ ':' :: pad2 r.second

/-- One iteration of the `string_to_datetime` format loop: `strptime` with
    the candidate format, then the source's round trip through
    `strftime/strptime` with `"%d/%m/%Y %H:%M:%S"`, which discards any
    timezone.  Any `ValueError` (`none`) sends the loop to the next format. -/
def tryFormat (toks : List FTok) (s : Str) : Option DT :=
  match runToks toks s initRaw with
  | none => none
  | some r =>
    if rawValid r = true then
      match runToks fmtDMY (strftimeDMY r) initRaw with
      | none => none
      | some r2 => if rawValid r2 = true then some r2.toDT else none
    else none

def firstFormat : List (List FTok) → Str → Option DT
  | [], _ => none
  | f :: fs, s =>
    match tryFormat f s with
    | some d => some d
    | none => firstFormat fs s

def utcSuffix : Str := [' ', '(', 'U', 'T', 'C', ')']

/-- `UtilityFunctions.string_to_datetime`: strip a trailing `" (UTC)"`,
    then try the known formats in order; `none` models the final
    `ValueError`. -/
def string_to_datetime (s : Str) : Option DT :=
  let s' := if utcSuffix.isSuffixOf s then s.take (s.length - 6) else s
  firstFormat knownFormats s'

/-! ## FileManagement: the durable correspondence ledger -/

/-- One in-memory entry of `sent_mails_waiting_for_answer_or_confirmation`
    as loaded from the file: a single-key mapping from sender address to a
    parsed datetime. -/
abbrev LedgerEntry := Str × DT

/-- Result of `FileManagement.update_sent_mails_waiting_for_answer_from_file`:
    either the accumulated entries, or the `ValueError` that aborts the
    load when a row's timestamp matches no known format. -/
inductive LoadRes where
  | err
  | ok (entries : List LedgerEntry)
deriving DecidableEq, Repr

/-- Outcome of processing one line of `mails_waiting_for_answer.txt`. -/
inductive LineRes where
  | entry (e : LedgerEntry)
  | skipped
  | abort
deriving Repr

/-- One iteration of the load loop: strip the line, split at the first
    colon, strip the parts; two parts → parse the timestamp (failure
    aborts); one part → skip (blank, or logged as malformed). -/
def lineStep (line : Str) : LineRes :=
  match splitOnce [':'] (pyStrip line) with
  | some (before, after) =>
    match string_to_datetime (pyStrip after) with
    | some dt => .entry (pyStrip before, dt)
    | none => .abort
  | none => .skipped

def loadEntries : List Str → List LedgerEntry → LoadRes
  | [], acc => .ok acc
  | l :: ls, acc =>
    match lineStep l with
    | .abort => .err
    | .entry e => loadEntries ls (acc ++ [e])
    | .skipped => loadEntries ls acc

/-- `FileManagement.update_sent_mails_waiting_for_answer_from_file`, over
    the file's lines (the in-memory list starts empty at the only call
    site). -/
def update_sent_mails_from_file (lines : List Str) : LoadRes :=
  loadEntries lines []

/-- `FileManagement.add_to_waiting_list`: append each in-memory entry whose
    address and timestamp string are both non-empty as a new line
    `"  <mail>: <date>"` (each write is newline-prefixed, so it starts a
    fresh line).  The file is modelled as its list of lines. -/
def add_to_waiting_list (lines : List Str) (mem : List (Str × Str)) : List Str :=
  lines ++ mem.filterMap (fun p =>
    if p.1 ≠ [] ∧ p.2 ≠ [] then some (' ' :: ' ' :: (p.1 ++ ':' :: ' ' :: p.2)) else none)

/-- `FileManagement.remove_from_waiting_list`: a missing file is a logged
    no-op; otherwise keep exactly the lines in which `sender_email` does
    not occur as a substring. -/
def remove_from_waiting_list (file : Option (List Str)) (senderEmail : Str) : Option (List Str) :=
  match file with
  | none => none
  | some lines => some (lines.filter (fun line => ¬ hasSub senderEmail line = true))

/-! ## ApiInteraction: classifier, normalizer, matcher -/

/-- `ApiInteraction.check_email_response_status`.  The receiving time is
    parsed first (`none` models the propagated `ValueError`); then:
    sender among the ledger keys and strictly later receipt → `"RESPONSE"`;
    sender absent → `"QUESTION"`; otherwise `""` (the spec's
    INDETERMINATE).  `[d[sender] for d in ... if sender in d][0]` is the
    first matching entry in list order. -/
def check_email_response_status (ledger : List LedgerEntry) (sender : Str)
    (receivingTime : Str) : Option Str :=
  match string_to_datetime receivingTime with
  | none => none
  | some rt =>
    some (
      if ledger.any (fun d => d.1 = sender) then
        match (ledger.filter (fun d => d.1 = sender)).head? with
        | some d => if DT.lt d.2 rt then "RESPONSE".data else "".data
        | none => "".data
      else "QUESTION".data)

/-- The body-normalisation prefix of `ApiInteraction.reading_answers`.
    `cleared_body` is only assigned under the two `in` tests (the `"**"`
    test runs second and overwrites); when neither marker occurs the name
    is unbound and the `NameError` is caught by the surrounding handler,
    which returns the no-match value — modelled as `none`.  A falsy
    (empty) `cleared_body` falls back to the full raw body.  The result is
    `(filtered_body, filtered_body_without_spaces)`. -/
def normalizeBody (raw : Str) : Option (Str × Str) :=
  let cleared : Option Str :=
    if hasSub ['*', '*'] raw = true then some (takeBefore ['*', '*'] raw)
    else if hasSub ['>'] raw = true then some (takeBefore ['>'] raw)
    else none
  match cleared with
  | none => none
  | some c =>
    let filtered :=
      if c ≠ [] then pyReplace ['\n'] [] (pyReplace [' ', ' '] [' '] c)
      else pyReplace ['\n'] [] (pyReplace [' ', ' '] [' '] raw)
    some (filtered, pyReplace [' '] [] (lowerStr filtered))

/-- `config.LANGUAGE` is the empty string, so
    `UtilityFunctions.translator` takes its falsy branch and returns the
    word unchanged. -/
def translator (word : Str) : Str := word

/-- Sakamoto's day-of-week (0 = Sunday), agreeing with the proleptic
    Gregorian calendar used by Python `datetime` for years ≥ 1; the
    `- y/100` term of the usual formula is written `+ 6 * (y / 100)`,
    congruent mod 7, to stay in `Nat`. -/
def dowIndex (y m d : Nat) : Nat :=
  let t := [0, 3, 2, 5, 0, 3, 5, 1, 4, 6, 2, 4]
  let y' := if m < 3 then y - 1 else y
  (y' + y' / 4 + 6 * (y' / 100) + y' / 400 + t.getD (m - 1) 0 + d) % 7

/-- English weekday names indexed by `dowIndex` (0 = Sunday); with
    `LANGUAGE = ''` the translator leaves `strftime('%A')` names as-is. -/
def dayNames : List Str :=
  [['S', 'u', 'n', 'd', 'a', 'y'], ['M', 'o', 'n', 'd', 'a', 'y'],
   ['T', 'u', 'e', 's', 'd', 'a', 'y'], ['W', 'e', 'd', 'n', 'e', 's', 'd', 'a', 'y'],
   ['T', 'h', 'u', 'r', 's', 'd', 'a', 'y'], ['F', 'r', 'i', 'd', 'a', 'y'],
   ['S', 'a', 't', 'u', 'r', 'd', 'a', 'y']]

/-- `datetime.strptime(s, "%Y-%m-%d")`: the `%Y-%m-%d` tokens plus the
    constructor's validity checks, yielding (year, month, day). -/
def parseDateYMD (s : Str) : Option (Nat × Nat × Nat) :=
  match runToks fmtYMD s initRaw with
  | some r => if rawValid r = true then some (r.year, r.month, r.day) else none
  | none => none

/-- `UtilityFunctions.day_of_a_week`: parse the date before `'T'` with
    `%Y-%m-%d` (a `ValueError` propagates, modelled as `none`), take the
    English `%A` name, lower it, translate (identity), capitalize. -/
def day_of_a_week (dateTime : Str) : Option Str :=
  match parseDateYMD (takeBefore ['T'] dateTime) with
  | none => none
  | some (y, m, d) => some (pyCapitalize (lowerStr (translator (dayNames.getD (dowIndex y m d) []))))

/-- `config.workout_hour_form`: the template
    `"{date} ({day_of_a_week}) at {hour} in {location}"`. -/
def workout_hour_form (date dayW hour location : Str) : Str :=
  date ++ ' ' :: '(' :: dayW ++ ')' :: ' ' :: 'a' :: 't' :: ' ' :: hour ++
    ' ' :: 'i' :: 'n' :: ' ' :: location

/-- An element of `list_of_optional_hours`: `[start, summary, location]`. -/
abbrev OptHour := Str × Str × Str

/-- The `formatted_string` computed for one optional hour inside
    `reading_answers`: `none` models the per-item exceptions (a
    `ValueError` from `day_of_a_week` on a malformed date, or the
    `IndexError` of `split('T')[1]`), which `continue` to the next item. -/
def renderSlot (it : OptHour) : Option Str :=
  match day_of_a_week it.1 with
  | none => none
  | some dayW =>
    match (splitAllOnChar 'T' it.1).get? 1 with
    | none => none
    | some seg =>
      some (workout_hour_form (takeBefore ['T'] it.1) (translator dayW)
        (seg.take (seg.length - 9)) it.2.2)

/-- `s.lower().replace(" ", "")`. -/
def collapseStr (s : Str) : Str := pyReplace [' '] [] (lowerStr s)

/-- Does one optional hour match the normalized reply (either rendered
    form contained in the corresponding reply form)? -/
def slotMatches (filtered collapsed : Str) (it : OptHour) : Bool :=
  match renderSlot it with
  | none => false
  | some f => hasSub f filtered || hasSub (collapseStr f) collapsed

/-- The matching loop of `ApiInteraction.reading_answers`: first optional
    hour whose rendered form is contained, items raising are skipped,
    `[]` (here `none`) when the loop completes. -/
def scanSlots (filtered collapsed : Str) : List OptHour → Option OptHour
  | [] => none
  | it :: rest =>
    match renderSlot it with
    | none => scanSlots filtered collapsed rest
    | some f =>
      if hasSub f filtered || hasSub (collapseStr f) collapsed then some it
      else scanSlots filtered collapsed rest

/-- `ApiInteraction.reading_answers`: normalize the body (an exception
    returns the no-match value), then scan `list_of_optional_hours`. -/
def reading_answers (body : Str) (slots : List OptHour) : Option OptHour :=
  match normalizeBody body with
  | none => none
  | some (f, c) => scanSlots f c slots

/-! ## ApiInteraction: calendar_stuff -/

/-- A calendar event as consumed by `calendar_stuff` / `schedule_workout`:
    `start` is `event["start"]["dateTime"]` (or the all-day `date`),
    `location` is `None` when the key is missing. -/
structure CalEvent where
  summary : Str
  start : Str
  location : Option Str
deriving DecidableEq, Repr

/-- `config.CALENDAR_OPTIONAL_HOUR_NAME`. -/
def CALENDAR_OPTIONAL_HOUR_NAME : Str := ['w', 'o', 'l', 'n', 'e']

/-- Accumulated state of the `calendar_stuff` event loop. -/
structure CalAcc where
  gyms : List Str
  hours : List OptHour
  dates : List (Nat × Nat × Nat)
deriving DecidableEq, Repr

def initCalAcc : CalAcc := ⟨[], [], []⟩

/-- The event loop of `calendar_stuff`.  For a marker-named event with no
    location the log message itself evaluates
    `strptime(start.split("T")[0], "%Y-%m-%d")` and `start.split('T')[1]`,
    so either failing raises (`.error`); with a location the slot is
    appended and then the date is parsed for the `dates` list (a
    `ValueError` raises). -/
def calLoop : List CalEvent → CalAcc → Except Unit CalAcc
  | [], acc => .ok acc
  | e :: es, acc =>
    if lowerStr e.summary = CALENDAR_OPTIONAL_HOUR_NAME then
      match e.location with
      | none =>
        match parseDateYMD (takeBefore ['T'] e.start), (splitAllOnChar 'T' e.start).get? 1 with
        | some _, some _ => calLoop es acc
        | _, _ => .error ()
      | some loc =>
        let acc1 : CalAcc :=
          { acc with
            gyms := if loc ∈ acc.gyms then acc.gyms else acc.gyms ++ [loc],
            hours := acc.hours ++ [(e.start, e.summary, loc)] }
        match parseDateYMD (takeBefore ['T'] e.start) with
        | none => .error ()
        | some dte =>
          calLoop es { acc1 with dates := if dte ∈ acc1.dates then acc1.dates else acc1.dates ++ [dte] }
    else calLoop es acc

/-- Observable outcome of `ApiInteraction.calendar_stuff`. -/
inductive CalOutcome where
  | sysExit
  | dateValueError
  | emptyMinError
  | okRes (hours : List OptHour) (warned : Bool)
deriving DecidableEq, Repr

/-- `ApiInteraction.calendar_stuff`: an empty events list is the fatal
    `sys.exit` path; otherwise the loop runs (a date `ValueError`
    propagates); with fewer than 15 optional hours the low-availability
    warning is printed, whose `min(self.dates)` raises `ValueError` when
    `dates` is empty. -/
def calendar_stuff (events : List CalEvent) : CalOutcome :=
  if events.isEmpty then .sysExit
  else
    match calLoop events initCalAcc with
    | .error _ => .dateValueError
    | .ok acc =>
      if acc.hours.length < 15 then
        if acc.dates.isEmpty then .emptyMinError
        else .okRes acc.hours true
      else .okRes acc.hours false

/-! ## ApiInteraction: booking and response handling -/

/-- Success oracles for the two externally-effectful booking steps: the
    calendar event get+update, and the confirmation-mail send (each
    `false` models the call raising through its retry wrapper). -/
structure BookingWorld where
  updateOk : Bool
  sendOk : Bool
deriving DecidableEq, Repr

/-- Result of a booking attempt: whether an exception propagated, the
    ledger file afterwards, and `something_happened` afterwards. -/
structure BookRes where
  raised : Bool
  file : Option (List Str)
  something : Bool
deriving DecidableEq, Repr

/-- `ApiInteraction.sending_confirmation`: build and send the confirmation
    (failure re-raises through `handle_api_errors` before any state
    change), then set `something_happened`, then
    `remove_from_waiting_list(sender_email)`. -/
def sending_confirmation (w : BookingWorld) (file : Option (List Str)) (something : Bool)
    (senderEmail : Str) : BookRes :=
  if w.sendOk then ⟨false, remove_from_waiting_list file senderEmail, true⟩
  else ⟨true, file, something⟩

/-- `ApiInteraction.schedule_workout`: find the first event equal to the
    chosen slot (start, case-folded summary, location with `""` default);
    on a hit, update the calendar event (failure propagates: only
    `StopIteration` is caught) and then send the confirmation; `break`
    after the first hit. -/
def schedule_workout (w : BookingWorld) (file : Option (List Str)) (something : Bool)
    (events : List CalEvent) (choice : OptHour) (senderEmail : Str) : BookRes :=
  match events.find? (fun e =>
      decide (choice.1 = e.start ∧ lowerStr choice.2.1 = lowerStr e.summary ∧
        choice.2.2 = e.location.getD [])) with
  | none => ⟨false, file, something⟩
  | some _ =>
    if w.updateOk then sending_confirmation w file something senderEmail
    else ⟨true, file, something⟩

/-- Result of `ApiInteraction.handle_response`: exception flag, ledger
    file, `something_happened`, `removing_unread_label_blocker`. -/
structure HandleRes where
  raised : Bool
  file : Option (List Str)
  something : Bool
  blocker : Bool
deriving DecidableEq, Repr

/-- `ApiInteraction.handle_response` (with `list_of_optional_hours`
    already populated): read the answer; a match goes to
    `schedule_workout`; no match sets `something_happened` and the
    run-level `removing_unread_label_blocker` and touches nothing else. -/
def handle_response (w : BookingWorld) (file : Option (List Str)) (something blocker : Bool)
    (events : List CalEvent) (slots : List OptHour) (body senderEmail : Str) : HandleRes :=
  match reading_answers body slots with
  | some choice =>
    let r := schedule_workout w file something events choice senderEmail
    ⟨r.raised, r.file, r.something, blocker⟩
  | none => ⟨false, file, true, true⟩

/-- `Maileg.removing_unread_label`: whether the batch `mark_as_read`
    call is issued, given the run-level blocker. -/
def removing_unread_label (blocker : Bool) : Bool :=
  if blocker = false then true else false

/-! ## Statement-level definitions -/

/-- A field-wise valid datetime whose year has four decimal digits — the
    values `datetime.now()` and the Gmail headers actually produce, and
    exactly the ones surviving the `strftime("%Y")`/`strptime` round trip
    of `string_to_datetime`. -/
def validDT (d : DT) : Prop :=
  1000 ≤ d.year ∧ d.year ≤ 9999 ∧ 1 ≤ d.month ∧ d.month ≤ 12 ∧ 1 ≤ d.day ∧
    d.day ≤ daysInMonth d.year d.month ∧ d.hour ≤ 23 ∧ d.minute ≤ 59 ∧ d.second ≤ 59

instance (d : DT) : Decidable (validDT d) := by unfold validDT; infer_instance

/-- A well-formed sender address as written to the ledger file: non-empty,
    no surrounding whitespace, and free of `':'` and newlines (true of
    every e-mail address). -/
def goodAddr (a : Str) : Prop :=
  a ≠ [] ∧ (∀ c, a.head? = some c → isWS c = false) ∧
    (∀ c, a.getLast? = some c → isWS c = false) ∧ ':' ∉ a ∧ '\n' ∉ a

instance (a : Str) : Decidable (goodAddr a) := by unfold goodAddr; infer_instance

/-- C-locale `%b` month abbreviations, as `strftime` renders them. -/
def monStr (m : Nat) : Str :=
  [['J', 'a', 'n'], ['F', 'e', 'b'], ['M', 'a', 'r'], ['A', 'p', 'r'],
   ['M', 'a', 'y'], ['J', 'u', 'n'], ['J', 'u', 'l'], ['A', 'u', 'g'],
   ['S', 'e', 'p'], ['O', 'c', 't'], ['N', 'o', 'v'], ['D', 'e', 'c']].getD (m - 1) []

/-- An RFC-2822 date string `"Mon, DD Bbb YYYY HH:MM:SS ±HHMM"` carrying an
    explicit numeric zone offset (`strptime` never checks the weekday name
    against the date, so `Mon` is fixed). -/
def rfc2822Str (d : DT) (zneg : Bool) (zh zm : Nat) : Str :=
  ['M', 'o', 'n', ',', ' '] ++ pad2 d.day ++ ' ' :: monStr d.month ++
    ' ' :: natToString4 d.year ++ ' ' :: pad2 d.hour ++ ':' :: pad2 d.minute ++
    ':' :: pad2 d.second ++ ' ' :: (if zneg then '-' else '+') :: (pad2 zh ++ pad2 zm)

/-- Append entries to an empty ledger in memory (each serialized with
    `strftime("%d/%m/%Y %H:%M:%S")`, as `answering_to_first_mails` does),
    flush them with `add_to_waiting_list`, and load the file back. -/
def flushLoad (entries : List LedgerEntry) : LoadRes :=
  update_sent_mails_from_file
    (add_to_waiting_list [] (entries.map (fun e => (e.1, strftimeDMY e.2.toRaw))))

/-- Modelled from the spec's Text Normalizer contract: the body truncated
    at the first occurrence of whichever quoted-reply marker (`'>'` or
    `"**"`) appears first, kept whole when neither occurs. -/
def specClearedBody : Str → Str
  | [] => []
  | c :: rest =>
    if c = '>' ∨ ['*', '*'].isPrefixOf (c :: rest) then []
    else c :: specClearedBody rest

/-- Modelled from the spec's Text Normalizer contract: truncate at the
    first marker, then collapse double spaces and strip newlines, and
    produce the collapsed lower-cased secondary form. -/
def normalizeSpec (raw : Str) : Str × Str :=
  let f := pyReplace ['\n'] [] (pyReplace [' ', ' '] [' '] (specClearedBody raw))
  (f, pyReplace [' '] [] (lowerStr f))

/-- The tail of the normalisation in `reading_answers`: a non-empty
    `cleared_body` (else the raw body) with double spaces collapsed and
    newlines stripped, paired with its lower-cased space-free form. -/
def finishNorm (cleared raw : Str) : Str × Str :=
  let filtered :=
    if cleared ≠ [] then pyReplace ['\n'] [] (pyReplace [' ', ' '] [' '] cleared)
    else pyReplace ['\n'] [] (pyReplace [' ', ' '] [' '] raw)
  (filtered, pyReplace [' '] [] (lowerStr filtered))

/-! ## Helper lemmas -/

theorem head?_filter_eq_find? {α : Type} (p : α → Bool) (l : List α) :
    (l.filter p).head? = l.find? p := by
  induction l with
  | nil => rfl
  | cons a l ih =>
    by_cases h : p a = true
    · simp [List.filter_cons, List.find?_cons, h]
    · simp only [List.filter_cons, List.find?_cons]
      rw [if_neg h, ih]
      cases hpa : p a
      · rfl
      · exact absurd hpa h

theorem scanSlots_eq_find? (f c : Str) (slots : List OptHour) :
    scanSlots f c slots = slots.find? (slotMatches f c) := by
  induction slots with
  | nil => rfl
  | cons it rest ih =>
    rw [List.find?_cons]
    cases hr : renderSlot it with
    | none =>
      have hm : slotMatches f c it = false := by simp [slotMatches, hr]
      rw [hm]
      simpa [scanSlots, hr] using ih
    | some s =>
      have hm : slotMatches f c it = (hasSub s f || hasSub (collapseStr s) c) := by
        simp [slotMatches, hr]
      rw [hm]
      cases hc : (hasSub s f || hasSub (collapseStr s) c)
      · simpa [scanSlots, hr, hc] using ih
      · simp [scanSlots, hr, hc]

theorem loadEntries_skip (line : Str) (h : lineStep line = .skipped) :
    ∀ (pre : List Str) (acc : List LedgerEntry) (post : List Str),
      loadEntries (pre ++ line :: post) acc = loadEntries (pre ++ post) acc := by
  intro pre
  induction pre with
  | nil => intro acc post; simp [loadEntries, h]
  | cons l pre ih =>
    intro acc post
    simp only [List.cons_append, loadEntries]
    cases hs : lineStep l <;> simp [ih]

theorem loadEntries_abort (line : Str) (h : lineStep line = .abort) :
    ∀ (pre : List Str) (acc : List LedgerEntry) (post : List Str),
      loadEntries (pre ++ line :: post) acc = .err := by
  intro pre
  induction pre with
  | nil => intro acc post; simp [loadEntries, h]
  | cons l pre ih =>
    intro acc post
    simp only [List.cons_append, loadEntries]
    cases hs : lineStep l <;> simp [ih]

theorem calLoop_dates (es : List CalEvent) :
    ∀ acc acc', calLoop es acc = .ok acc' → acc'.dates = [] →
      acc'.hours = acc.hours ∧ acc.dates = [] := by
  induction es with
  | nil =>
    intro acc acc' h hd
    simp only [calLoop] at h
    cases h
    exact ⟨rfl, hd⟩
  | cons e es ih =>
    intro acc acc' h hd
    simp only [calLoop] at h
    by_cases hm : lowerStr e.summary = CALENDAR_OPTIONAL_HOUR_NAME
    · rw [if_pos hm] at h
      cases hl : e.location with
      | none =>
        rw [hl] at h
        cases h1 : parseDateYMD (takeBefore ['T'] e.start) with
        | none => rw [h1] at h; exact absurd h (by simp)
        | some d =>
          rw [h1] at h
          cases h2 : (splitAllOnChar 'T' e.start).get? 1 with
          | none => rw [h2] at h; exact absurd h (by simp)
          | some seg => rw [h2] at h; exact ih acc acc' h hd
      | some loc =>
        rw [hl] at h
        cases h1 : parseDateYMD (takeBefore ['T'] e.start) with
        | none => rw [h1] at h; exact absurd h (by simp)
        | some dte =>
          rw [h1] at h
          have h2 := ih _ _ h hd
          exfalso
          by_cases hmem : dte ∈ acc.dates
          · rw [if_pos hmem] at h2
            have : acc.dates = [] := h2.2
            rw [this] at hmem
            exact absurd hmem (List.not_mem_nil dte)
          · rw [if_neg hmem] at h2
            exact absurd h2.2 (by simp)
    · rw [if_neg hm] at h
      exact ih acc acc' h hd

/-! ## Claim theorems -/

/-- C1: for every sender address and parseable receipt time, the
    classifier returns `"QUESTION"` when the ledger holds no entry for
    that address; `"RESPONSE"` when it holds one and the receipt time is
    strictly later than the first matching entry's timestamp; and `""`
    (the spec's INDETERMINATE) when it holds one but the receipt time is
    equal to or earlier than that timestamp. -/
theorem c1_classifier (ledger : List LedgerEntry) (sender : Str) (rtStr : Str) (rt : DT)
    (hparse : string_to_datetime rtStr = some rt) :
    (ledger.find? (fun d => d.1 = sender) = none →
      check_email_response_status ledger sender rtStr = some "QUESTION".data) ∧
    (∀ e, ledger.find? (fun d => d.1 = sender) = some e → DT.lt e.2 rt = true →
      check_email_response_status ledger sender rtStr = some "RESPONSE".data) ∧
    (∀ e, ledger.find? (fun d => d.1 = sender) = some e → DT.lt e.2 rt = false →
      check_email_response_status ledger sender rtStr = some "".data) := by
  unfold check_email_response_status
  rw [hparse]
  refine ⟨?_, ?_, ?_⟩
  · intro hf
    have hany : ledger.any (fun d => decide (d.1 = sender)) = false := by
      rw [List.any_eq_false]
      intro x hx
      have := List.find?_eq_none.mp hf x hx
      simpa using this
    simp [hany]
  · intro e hf hlt
    have hany : ledger.any (fun d => decide (d.1 = sender)) = true := by
      rw [List.any_eq_true]
      have hpe : decide (e.1 = sender) = true := by
        have h2 := @List.find?_some _ (fun d => decide (d.1 = sender)) e ledger hf
        simpa using h2
      exact ⟨e, List.mem_of_find?_eq_some hf, hpe⟩
    rw [head?_filter_eq_find?]
    simp [hany, hf, hlt]
  · intro e hf hlt
    have hany : ledger.any (fun d => decide (d.1 = sender)) = true := by
      rw [List.any_eq_true]
      have hpe : decide (e.1 = sender) = true := by
        have h2 := @List.find?_some _ (fun d => decide (d.1 = sender)) e ledger hf
        simpa using h2
      exact ⟨e, List.mem_of_find?_eq_some hf, hpe⟩
    rw [head?_filter_eq_find?]
    simp [hany, hf, hlt]

/-- Witness for C1 at a concrete ledger and receipt times: strictly later
    receipt gives RESPONSE, an entry-free ledger gives QUESTION, an equal
    receipt gives the empty string. -/
theorem c1_classifier_witness :
    check_email_response_status [("a@x.com".data, ⟨2023, 10, 23, 10, 0, 0⟩)] "a@x.com".data
      "2023-10-23 12:00:00".data = some "RESPONSE".data ∧
    check_email_response_status [] "a@x.com".data "2023-10-23 12:00:00".data =
      some "QUESTION".data ∧
    check_email_response_status [("a@x.com".data, ⟨2023, 10, 23, 10, 0, 0⟩)] "a@x.com".data
      "2023-10-23 10:00:00".data = some "".data := by
  refine ⟨?_, ?_, ?_⟩
  · exact (c1_classifier [("a@x.com".data, ⟨2023, 10, 23, 10, 0, 0⟩)] "a@x.com".data
      "2023-10-23 12:00:00".data ⟨2023, 10, 23, 12, 0, 0⟩ (by decide)).2.1
      ("a@x.com".data, ⟨2023, 10, 23, 10, 0, 0⟩) (by decide) (by decide)
  · exact (c1_classifier [] "a@x.com".data "2023-10-23 12:00:00".data
      ⟨2023, 10, 23, 12, 0, 0⟩ (by decide)).1 (by decide)
  · exact (c1_classifier [("a@x.com".data, ⟨2023, 10, 23, 10, 0, 0⟩)] "a@x.com".data
      "2023-10-23 10:00:00".data ⟨2023, 10, 23, 10, 0, 0⟩ (by decide)).2.2
      ("a@x.com".data, ⟨2023, 10, 23, 10, 0, 0⟩) (by decide) (by decide)

/-- C2 counterexample: on the body `"a>b**c"`, where the first-occurring
    marker is the `'>'` at index 1, the claim demands truncation to
    `"a"`, but the code truncates at `"**"` and produces `"a>b"`; and on
    the body `"hello"`, with neither marker present, the claim demands
    the full body kept, but the code raises a `NameError` (unassigned
    `cleared_body`) and yields no normalized text at all. -/
theorem c2_counterexample :
    normalizeBody "a>b**c".data = some ("a>b".data, "a>b".data) ∧
    normalizeSpec "a>b**c".data = ("a".data, "a".data) ∧
    some (normalizeSpec "a>b**c".data) ≠ normalizeBody "a>b**c".data ∧
    normalizeBody "hello".data = none ∧
    normalizeSpec "hello".data = ("hello".data, "hello".data) := by
  decide

/-- C2 amended: normalization keeps the text preceding the first `"**"`
    whenever `"**"` occurs (even if a `'>'` occurs earlier), otherwise the
    text preceding the first `'>'` when `'>'` occurs; an empty kept prefix
    falls back to the full body; and when neither marker occurs, the
    body-processing step raises and the message is treated as matching no
    slot (no normalized text is produced).  Double spaces are then
    collapsed and newlines stripped, with a lower-cased space-free
    secondary form. -/
theorem c2_amended (raw : Str) :
    (hasSub ['*', '*'] raw = true →
      normalizeBody raw = some (finishNorm (takeBefore ['*', '*'] raw) raw)) ∧
    (hasSub ['*', '*'] raw = false → hasSub ['>'] raw = true →
      normalizeBody raw = some (finishNorm (takeBefore ['>'] raw) raw)) ∧
    (hasSub ['*', '*'] raw = false → hasSub ['>'] raw = false →
      normalizeBody raw = none ∧ ∀ slots, reading_answers raw slots = none) := by
  refine ⟨?_, ?_, ?_⟩
  · intro hstar
    simp [normalizeBody, finishNorm, hstar]
  · intro hstar hgt
    simp [normalizeBody, finishNorm, hstar, hgt]
  · intro hstar hgt
    refine ⟨by simp [normalizeBody, hstar, hgt], ?_⟩
    intro slots
    simp [reading_answers, normalizeBody, hstar, hgt]

/-- Witness for C2's amended claim at concrete bodies covering all three
    branches. -/
theorem c2_amended_witness :
    normalizeBody "a>b**c".data =
      some (finishNorm (takeBefore ['*', '*'] "a>b**c".data) "a>b**c".data) ∧
    normalizeBody "pick A > old".data =
      some (finishNorm (takeBefore ['>'] "pick A > old".data) "pick A > old".data) ∧
    normalizeBody "hello".data = none := by
  refine ⟨?_, ?_, ?_⟩
  · exact (c2_amended "a>b**c".data).1 (by decide)
  · exact (c2_amended "pick A > old".data).2.1 (by decide) (by decide)
  · exact ((c2_amended "hello".data).2.2 (by decide) (by decide)).1

/-- C3: the matching loop of `reading_answers` scans the offered slots in
    retrieval order and returns the first slot whose rendered string
    (standard, or lower-cased space-stripped) is contained in the
    corresponding normalized reply form — i.e. it equals `List.find?` of
    the containment predicate, so no later slot is considered and the
    no-match value is returned when no slot's rendering is contained. -/
theorem c3_matcher_first_match (filtered collapsed : Str) (slots : List OptHour)
    (_hne : slots ≠ []) :
    scanSlots filtered collapsed slots = slots.find? (slotMatches filtered collapsed) :=
  scanSlots_eq_find? filtered collapsed slots

/-- Witness for C3: with two offered slots both contained in the reply,
    the scan returns the first. -/
theorem c3_matcher_first_match_witness :
    scanSlots "x 2023-10-24 (Tuesday) at 10:00 in GymB and 2023-10-23 (Monday) at 18:00 in GymA".data
      "x2023-10-24(tuesday)at10:00ingymband2023-10-23(monday)at18:00ingyma".data
      [("2023-10-24T10:00:00+01:00".data, "wolne".data, "GymB".data),
       ("2023-10-23T18:00:00+01:00".data, "wolne".data, "GymA".data)] =
    List.find?
      (slotMatches "x 2023-10-24 (Tuesday) at 10:00 in GymB and 2023-10-23 (Monday) at 18:00 in GymA".data
        "x2023-10-24(tuesday)at10:00ingymband2023-10-23(monday)at18:00ingyma".data)
      [("2023-10-24T10:00:00+01:00".data, "wolne".data, "GymB".data),
       ("2023-10-23T18:00:00+01:00".data, "wolne".data, "GymA".data)] :=
  c3_matcher_first_match _ _ _ (by decide)

/-- C4 counterexample: one calendar event whose summary is not the marker
    name.  The collaborator thus yields zero marker-named candidate slots
    (the loop accumulates nothing), yet the run does not halt through the
    fatal `sys.exit` (`ConfigurationError`) path — it dies computing
    `min(self.dates)` on an empty list in the low-availability warning. -/
theorem c4_counterexample :
    calendar_stuff [⟨"busy".data, "2024-01-05T10:00:00+01:00".data, none⟩] =
      CalOutcome.emptyMinError ∧
    calLoop [⟨"busy".data, "2024-01-05T10:00:00+01:00".data, none⟩] initCalAcc =
      Except.ok initCalAcc ∧
    CalOutcome.emptyMinError ≠ CalOutcome.sysExit :=
  ⟨rfl, rfl, by decide⟩

theorem calLoop_hours_len (es : List CalEvent) :
    ∀ acc acc', calLoop es acc = .ok acc' → acc.hours.length ≤ acc'.hours.length := by
  induction es with
  | nil =>
    intro acc acc' h
    simp only [calLoop] at h
    cases h
    exact le_refl _
  | cons e es ih =>
    intro acc acc' h
    simp only [calLoop] at h
    by_cases hm : lowerStr e.summary = CALENDAR_OPTIONAL_HOUR_NAME
    · rw [if_pos hm] at h
      cases hl : e.location with
      | none =>
        rw [hl] at h
        cases h1 : parseDateYMD (takeBefore ['T'] e.start) with
        | none => rw [h1] at h; exact absurd h (by simp)
        | some d =>
          rw [h1] at h
          cases h2 : (splitAllOnChar 'T' e.start).get? 1 with
          | none => rw [h2] at h; exact absurd h (by simp)
          | some seg => rw [h2] at h; exact ih acc acc' h
      | some loc =>
        rw [hl] at h
        cases h1 : parseDateYMD (takeBefore ['T'] e.start) with
        | none => rw [h1] at h; exact absurd h (by simp)
        | some dte =>
          rw [h1] at h
          have h3 : (acc.hours ++ [(e.start, e.summary, loc)]).length ≤ acc'.hours.length :=
            ih _ _ h
          simp only [List.length_append, List.length_cons, List.length_nil] at h3
          omega
    · rw [if_neg hm] at h
      exact ih acc acc' h

theorem calLoop_hours_eq_dates (es : List CalEvent) :
    ∀ acc acc', calLoop es acc = .ok acc' → acc'.hours = acc.hours →
      acc'.dates = acc.dates := by
  induction es with
  | nil =>
    intro acc acc' h he
    simp only [calLoop] at h
    cases h
    rfl
  | cons e es ih =>
    intro acc acc' h he
    simp only [calLoop] at h
    by_cases hm : lowerStr e.summary = CALENDAR_OPTIONAL_HOUR_NAME
    · rw [if_pos hm] at h
      cases hl : e.location with
      | none =>
        rw [hl] at h
        cases h1 : parseDateYMD (takeBefore ['T'] e.start) with
        | none => rw [h1] at h; exact absurd h (by simp)
        | some d =>
          rw [h1] at h
          cases h2 : (splitAllOnChar 'T' e.start).get? 1 with
          | none => rw [h2] at h; exact absurd h (by simp)
          | some seg => rw [h2] at h; exact ih acc acc' h he
      | some loc =>
        rw [hl] at h
        cases h1 : parseDateYMD (takeBefore ['T'] e.start) with
        | none => rw [h1] at h; exact absurd h (by simp)
        | some dte =>
          rw [h1] at h
          exfalso
          have hlen : (acc.hours ++ [(e.start, e.summary, loc)]).length ≤ acc'.hours.length :=
            calLoop_hours_len es _ _ h
          rw [he] at hlen
          simp only [List.length_append, List.length_cons, List.length_nil] at hlen
          omega
    · rw [if_neg hm] at h
      exact ih acc acc' h he

/-- C4 amended: the fatal `sys.exit` (the spec's `ConfigurationError`)
    fires exactly when the calendar collaborator yields zero events
    altogether — with any event present the run never exits that way.
    With events present: a marker-named event whose start field fails to
    parse raises a `ValueError` from `strptime` while scanning; when the
    scan completes with zero marker-named candidate slots, the run
    crashes with a `ValueError` from `min` over the empty dates list —
    again not a `ConfigurationError`; and when the scan completes with at
    least one but fewer than 15 candidate slots, only a warning is
    emitted and processing continues with those slots. -/
theorem c4_amended (events : List CalEvent) (acc' : CalAcc) :
    (calendar_stuff events = CalOutcome.sysExit ↔ events = []) ∧
    (events ≠ [] → calLoop events initCalAcc = Except.error () →
      calendar_stuff events = CalOutcome.dateValueError) ∧
    (events ≠ [] → calLoop events initCalAcc = Except.ok acc' → acc'.hours = [] →
      calendar_stuff events = CalOutcome.emptyMinError) ∧
    (calLoop events initCalAcc = Except.ok acc' → acc'.hours ≠ [] →
      acc'.hours.length < 15 →
      calendar_stuff events = CalOutcome.okRes acc'.hours true) := by
  refine ⟨⟨?_, ?_⟩, ?_, ?_, ?_⟩
  · intro h
    by_contra hne
    unfold calendar_stuff at h
    rw [if_neg (by simpa using hne)] at h
    cases hcl : calLoop events initCalAcc with
    | error e =>
      rw [hcl] at h
      exact absurd h (by simp)
    | ok acc =>
      rw [hcl] at h
      have h2 : (if acc.hours.length < 15 then
          (if acc.dates.isEmpty = true then CalOutcome.emptyMinError
           else CalOutcome.okRes acc.hours true)
          else CalOutcome.okRes acc.hours false) = CalOutcome.sysExit := h
      split_ifs at h2
  · intro h
    subst h
    rfl
  · intro hne hcl
    unfold calendar_stuff
    rw [if_neg (by simpa using hne), hcl]
  · intro hne hcl hh
    have hd : acc'.dates = [] := by
      simpa using calLoop_hours_eq_dates events initCalAcc acc' hcl (by rw [hh]; rfl)
    unfold calendar_stuff
    rw [if_neg (by simpa using hne), hcl]
    simp [hh, hd]
  · intro hl hne hlt
    have hdates : ¬ acc'.dates = [] := by
      intro hd
      exact hne ((calLoop_dates events initCalAcc acc' hl hd).1)
    have hev : events ≠ [] := by
      intro h
      subst h
      simp only [calLoop] at hl
      cases hl
      exact hne rfl
    unfold calendar_stuff
    rw [if_neg (by simpa using hev), hl]
    simp [hlt, hdates]

/-- Witness for C4's amended claim, one concrete instance per clause: no
    events exits fatally; a marker-named event with an unparseable start
    dies in `strptime`; an event list with zero marker-named slots dies
    in `min` over the empty dates list; one marker-named located slot
    gets the warning-and-continue outcome. -/
theorem c4_amended_witness :
    calendar_stuff [] = CalOutcome.sysExit ∧
    calendar_stuff [⟨"wolne".data, "garbage".data, none⟩] = CalOutcome.dateValueError ∧
    calendar_stuff [⟨"busy".data, "2024-01-05T10:00:00+01:00".data, none⟩] =
      CalOutcome.emptyMinError ∧
    calendar_stuff [⟨"Wolne".data, "2024-01-05T10:00:00+01:00".data, some "GymA".data⟩] =
      CalOutcome.okRes [("2024-01-05T10:00:00+01:00".data, "Wolne".data, "GymA".data)] true := by
  refine ⟨?_, ?_, ?_, ?_⟩
  · exact (c4_amended [] initCalAcc).1.mpr rfl
  · exact (c4_amended [⟨"wolne".data, "garbage".data, none⟩] initCalAcc).2.1
      (by decide) (by rfl)
  · exact (c4_amended [⟨"busy".data, "2024-01-05T10:00:00+01:00".data, none⟩]
      initCalAcc).2.2.1 (by decide) (by rfl) rfl
  · exact (c4_amended [⟨"Wolne".data, "2024-01-05T10:00:00+01:00".data, some "GymA".data⟩]
      ⟨["GymA".data], [("2024-01-05T10:00:00+01:00".data, "Wolne".data, "GymA".data)],
        [(2024, 1, 5)]⟩).2.2.2 (by rfl) (by decide) (by decide)

/-- C5: a correspondence ledger entry is never removed unless the booking
    side effect (calendar event update plus confirmation send) has been
    issued for that sender: if the booking step raises, the ledger file —
    and hence the sender's entry — is left exactly as it was, and any
    change to the file implies both booking steps succeeded without an
    exception. -/
theorem c5_removal_only_after_booking (w : BookingWorld) (file : Option (List Str))
    (something : Bool) (events : List CalEvent) (choice : OptHour) (senderEmail : Str) :
    ((schedule_workout w file something events choice senderEmail).raised = true →
      (schedule_workout w file something events choice senderEmail).file = file) ∧
    ((schedule_workout w file something events choice senderEmail).file ≠ file →
      w.updateOk = true ∧ w.sendOk = true ∧
        (schedule_workout w file something events choice senderEmail).raised = false) := by
  unfold schedule_workout sending_confirmation
  cases hf : events.find? (fun e =>
      decide (choice.1 = e.start ∧ lowerStr choice.2.1 = lowerStr e.summary ∧
        choice.2.2 = e.location.getD [])) with
  | none => simp
  | some e =>
    cases w with
    | mk u s => cases u <;> cases s <;> simp

/-- Witness for C5: with a matching event but a failing calendar update,
    the run raises and the ledger file containing the sender's row is
    untouched. -/
theorem c5_removal_only_after_booking_witness :
    (schedule_workout ⟨false, true⟩ (some ["  a@x.com: 23/10/2023 10:00:00".data]) false
      [⟨"wolne".data, "2024-01-05T10:00:00+01:00".data, some "GymA".data⟩]
      ("2024-01-05T10:00:00+01:00".data, "wolne".data, "GymA".data) "a@x.com".data).file =
      some ["  a@x.com: 23/10/2023 10:00:00".data] :=
  (c5_removal_only_after_booking ⟨false, true⟩ (some ["  a@x.com: 23/10/2023 10:00:00".data])
    false [⟨"wolne".data, "2024-01-05T10:00:00+01:00".data, some "GymA".data⟩]
    ("2024-01-05T10:00:00+01:00".data, "wolne".data, "GymA".data) "a@x.com".data).1 (by decide)

/-- C6: when a message classified as RESPONSE matches no offered slot,
    `handle_response` leaves the ledger file unchanged (the sender's entry
    is retained), raises nothing, and sets the run-level
    `removing_unread_label_blocker`, which suppresses the batch
    mark-as-read call of `Maileg.removing_unread_label` for the whole
    run. -/
theorem c6_unmatched_response (w : BookingWorld) (file : Option (List Str))
    (something blocker : Bool) (events : List CalEvent) (slots : List OptHour)
    (body senderEmail : Str) (h : reading_answers body slots = none) :
    handle_response w file something blocker events slots body senderEmail =
      ⟨false, file, true, true⟩ ∧
    removing_unread_label
      (handle_response w file something blocker events slots body senderEmail).blocker = false := by
  simp [handle_response, h, removing_unread_label]

/-- Witness for C6 at a concrete unmatched reply body. -/
theorem c6_unmatched_response_witness :
    handle_response ⟨true, true⟩ (some ["  a@x.com: 23/10/2023 10:00:00".data]) false false
      [] [("2024-01-05T10:00:00+01:00".data, "wolne".data, "GymA".data)]
      "thanks, none of these work for me".data "a@x.com".data =
      ⟨false, some ["  a@x.com: 23/10/2023 10:00:00".data], true, true⟩ :=
  (c6_unmatched_response ⟨true, true⟩ (some ["  a@x.com: 23/10/2023 10:00:00".data]) false false
    [] [("2024-01-05T10:00:00+01:00".data, "wolne".data, "GymA".data)]
    "thanks, none of these work for me".data "a@x.com".data (by decide)).1

/-- C7: during ledger load, a row with no `':'` (not of the shape
    `address: timestamp`) is skipped — the load of the remaining rows is
    exactly the load without that row; whereas a row that does split into
    `address: timestamp` but whose timestamp matches none of the accepted
    formats turns the entire load into the aborting error. -/
theorem c7_load_error_handling (pre post : List Str) (line : Str) :
    (splitOnce [':'] (pyStrip line) = none →
      update_sent_mails_from_file (pre ++ line :: post) =
        update_sent_mails_from_file (pre ++ post)) ∧
    (∀ b a, splitOnce [':'] (pyStrip line) = some (b, a) →
      string_to_datetime (pyStrip a) = none →
      update_sent_mails_from_file (pre ++ line :: post) = LoadRes.err) := by
  constructor
  · intro h
    have hs : lineStep line = .skipped := by simp [lineStep, h]
    exact loadEntries_skip line hs pre [] post
  · intro b a h hp
    have hs : lineStep line = .abort := by simp [lineStep, h, hp]
    exact loadEntries_abort line hs pre [] post

/-- Witness for C7: a colon-free garbage row between two good rows is
    dropped without affecting them; a colon row with an unparseable
    timestamp aborts the whole load. -/
theorem c7_load_error_handling_witness :
    update_sent_mails_from_file
      ["  a@x.com: 23/10/2023 10:00:00".data, "garbage without separator".data,
       "  b@y.com: 24/10/2023 11:00:00".data] =
      update_sent_mails_from_file
        ["  a@x.com: 23/10/2023 10:00:00".data, "  b@y.com: 24/10/2023 11:00:00".data] ∧
    update_sent_mails_from_file
      ["  a@x.com: 23/10/2023 10:00:00".data, "  b@y.com: not a date".data] = LoadRes.err := by
  constructor
  · exact (c7_load_error_handling ["  a@x.com: 23/10/2023 10:00:00".data]
      ["  b@y.com: 24/10/2023 11:00:00".data] "garbage without separator".data).1 (by decide)
  · exact (c7_load_error_handling ["  a@x.com: 23/10/2023 10:00:00".data] []
      "  b@y.com: not a date".data).2 "b@y.com".data " not a date".data (by decide) (by decide)

/-- C8 counterexample: the durable file holds one row whose address is
    `ba@x.com`; removing `a@x.com` — a different address — nonetheless
    drops that row, because `remove_from_waiting_list` filters lines by
    substring containment of the argument, not by address equality. -/
theorem c8_counterexample :
    remove_from_waiting_list (some ["  ba@x.com: 23/10/2023 10:00:00".data]) "a@x.com".data =
      some [] ∧
    (splitOnce [':'] (pyStrip "  ba@x.com: 23/10/2023 10:00:00".data)).map (fun p => p.1) =
      some "ba@x.com".data ∧
    "ba@x.com".data ≠ "a@x.com".data := by
  decide

/-- C8 amended: removal rewrites the durable file dropping exactly those
    rows that contain the given address as a substring (in particular
    every row whose address matches, regardless of timestamp — but also
    any row of a different address containing it); removing when the file
    is absent, or when no row contains the address, is a no-op and never
    an error, and removal is idempotent. -/
theorem c8_amended (file : Option (List Str)) (lines : List Str) (s l : Str) :
    remove_from_waiting_list none s = none ∧
    remove_from_waiting_list (remove_from_waiting_list file s) s =
      remove_from_waiting_list file s ∧
    ((l ∈ (remove_from_waiting_list (some lines) s).getD []) ↔
      l ∈ lines ∧ hasSub s l = false) ∧
    ((∀ x ∈ lines, hasSub s x = false) → remove_from_waiting_list (some lines) s = some lines) := by
  refine ⟨rfl, ?_, ?_, ?_⟩
  · cases file with
    | none => rfl
    | some ls =>
      simp only [remove_from_waiting_list, Option.some.injEq]
      rw [List.filter_filter]
      congr 1
      funext x
      cases hx : hasSub s x <;> simp [hx]
  · simp only [remove_from_waiting_list, Option.getD_some, List.mem_filter]
    constructor
    · rintro ⟨h1, h2⟩
      refine ⟨h1, ?_⟩
      cases hx : hasSub s l
      · rfl
      · rw [hx] at h2; simp at h2
    · rintro ⟨h1, h2⟩
      exact ⟨h1, by simp [h2]⟩
  · intro hall
    simp only [remove_from_waiting_list, Option.some.injEq]
    apply List.filter_eq_self.mpr
    intro x hx
    simp [hall x hx]

/-- Witness for C8's amended claim: removing an address contained in no
    row leaves the file unchanged. -/
theorem c8_amended_witness :
    remove_from_waiting_list (some ["  keep@x.com: 23/10/2023 10:00:00".data]) "zz@q.org".data =
      some ["  keep@x.com: 23/10/2023 10:00:00".data] :=
  (c8_amended none ["  keep@x.com: 23/10/2023 10:00:00".data] "zz@q.org".data []).2.2.2
    (by decide)

theorem toNat_digitChar (n : Nat) : (digitChar n).toNat = 48 + n % 10 := by
  have h : n % 10 < 10 := Nat.mod_lt _ (by omega)
  unfold digitChar
  generalize n % 10 = k at h ⊢
  interval_cases k <;> decide

theorem isDig_digitChar (n : Nat) : isDig (digitChar n) = true := by
  simp only [isDig, toNat_digitChar, decide_eq_true_eq]
  omega

theorem dv_digitChar (n : Nat) : dv (digitChar n) = n % 10 := by
  simp only [dv, toNat_digitChar]
  omega

theorem isWS_digitChar (n : Nat) : isWS (digitChar n) = false := by
  simp only [isWS, toNat_digitChar, decide_eq_false_iff_not]
  omega

theorem parse4Y_pad (y : Nat) (hy : y ≤ 9999) (rest : Str) :
    parse4Y (natToString4 y ++ rest) = some (y, rest) := by
  simp only [natToString4, List.cons_append, List.nil_append, parse4Y]
  rw [if_pos ⟨isDig_digitChar _, isDig_digitChar _, isDig_digitChar _, isDig_digitChar _⟩]
  have : 1000 * dv (digitChar (y / 1000)) + 100 * dv (digitChar (y / 100)) +
      10 * dv (digitChar (y / 10)) + dv (digitChar y) = y := by
    simp only [dv_digitChar]
    omega
  rw [this]

theorem parseDay2_pad (d : Nat) (h1 : 1 ≤ d) (h2 : d ≤ 31) (rest : Str) :
    parseDay2 (pad2 d ++ rest) = some (d, rest) := by
  interval_cases d <;> rfl

theorem parseMonth2_pad (m : Nat) (h1 : 1 ≤ m) (h2 : m ≤ 12) (rest : Str) :
    parseMonth2 (pad2 m ++ rest) = some (m, rest) := by
  interval_cases m <;> rfl

theorem parseHour2_pad (h : Nat) (h2 : h ≤ 23) (rest : Str) :
    parseHour2 (pad2 h ++ rest) = some (h, rest) := by
  interval_cases h <;> rfl

theorem parseMin2_pad (m : Nat) (h2 : m ≤ 59) (rest : Str) :
    parseMin2 (pad2 m ++ rest) = some (m, rest) := by
  interval_cases m <;> rfl

theorem parseSec2_pad (s : Nat) (h2 : s ≤ 59) (rest : Str) :
    parseSec2 (pad2 s ++ rest) = some (s, rest) := by
  interval_cases s <;> rfl

theorem parseWS1_sp_pad (n : Nat) (rest : Str) :
    parseWS1 (' ' :: (pad2 n ++ rest)) = some (pad2 n ++ rest) := by
  show parseWS1 (' ' :: digitChar (n / 10) :: digitChar n :: rest) =
    some (digitChar (n / 10) :: digitChar n :: rest)
  simp only [parseWS1]
  rw [if_pos (by decide)]
  rw [List.dropWhile_cons_of_neg (by simp [isWS_digitChar])]

theorem yearField_eq (y : Nat) (hy : 1000 ≤ y) : yearField y = natToString4 y := by
  simp only [yearField]
  rw [if_neg (by omega)]

theorem runToks_dmy_render (y mo dy hr mi se : Nat)
    (hy1 : 1000 ≤ y) (hy2 : y ≤ 9999) (hmo1 : 1 ≤ mo) (hmo2 : mo ≤ 12)
    (hdy1 : 1 ≤ dy) (hdy2 : dy ≤ 31) (hhr : hr ≤ 23) (hmi : mi ≤ 59) (hse : se ≤ 59) :
    runToks fmtDMY
      (pad2 dy ++ '/' :: pad2 mo ++ '/' :: natToString4 y ++
        ' ' :: pad2 hr ++ ':' :: pad2 mi ++ ':' :: pad2 se) initRaw =
      some ⟨y, mo, dy, hr, mi, se, none⟩ := by
  have h1 := parseDay2_pad dy hdy1 hdy2
    ('/' :: pad2 mo ++ '/' :: natToString4 y ++ ' ' :: pad2 hr ++ ':' :: pad2 mi ++ ':' :: pad2 se)
  have h2 := parseMonth2_pad mo hmo1 hmo2
    ('/' :: natToString4 y ++ ' ' :: pad2 hr ++ ':' :: pad2 mi ++ ':' :: pad2 se)
  have h3 := parse4Y_pad y hy2 (' ' :: pad2 hr ++ ':' :: pad2 mi ++ ':' :: pad2 se)
  have h4 := parseWS1_sp_pad hr (':' :: pad2 mi ++ ':' :: pad2 se)
  have h5 := parseHour2_pad hr hhr (':' :: pad2 mi ++ ':' :: pad2 se)
  have h6 := parseMin2_pad mi hmi (':' :: pad2 se)
  have h7 : parseSec2 (pad2 se) = some (se, []) := by
    have := parseSec2_pad se hse []
    rwa [List.append_nil] at this
  simp only [pad2, natToString4, List.cons_append, List.nil_append, List.append_assoc]
    at h1 h2 h3 h4 h5 h6 h7 ⊢
  simp only [fmtDMY, runToks, h1, h2, h3, h4, h5, h6, h7]
  simp [lowerChar, initRaw]

theorem not_utcSuffix (l : Str) (c : Char) (hl : l.getLast? = some c) (hc : ¬ c = ')') :
    utcSuffix.isSuffixOf l = false := by
  cases hs : utcSuffix.isSuffixOf l
  · rfl
  · exfalso
    have hsuf : utcSuffix <:+ l := List.isSuffixOf_iff_suffix.mp hs
    obtain ⟨t, ht⟩ := hsuf
    rw [← ht, @List.getLast?_append_of_ne_nil _ t utcSuffix (by decide)] at hl
    have : (')' : Char) = c := by
      have h2 : utcSuffix.getLast? = some ')' := by decide
      rw [h2] at hl
      exact Option.some.inj hl
    exact hc this.symm

theorem parse4Y_slash (a b : Char) (rest : Str) : parse4Y (a :: b :: '/' :: rest) = none := by
  cases rest with
  | nil => rfl
  | cons c4 rest' =>
    simp only [parse4Y]
    rw [if_neg]
    rintro ⟨-, -, h3, -⟩
    exact absurd h3 (by decide)

theorem parseDow_slash (a b : Char) (rest : Str) : parseDow (a :: b :: '/' :: rest) = none := by
  show (if [lowerChar a, lowerChar b, lowerChar '/'] ∈ dowAbbrevs then some rest else none) = none
  rw [if_neg]
  intro hmem
  have h3 : lowerChar '/' = '/' := by decide
  rw [h3] at hmem
  simp only [dowAbbrevs, List.mem_cons, List.not_mem_nil, or_false] at hmem
  rcases hmem with h | h | h | h | h | h | h <;>
  · rw [List.cons.injEq, List.cons.injEq, List.cons.injEq] at h
    exact absurd h.2.2.1 (by decide)

theorem runToks_y4_slash (ts : List FTok) (a b : Char) (rest : Str) (st : RawParse) :
    runToks (.y4 :: ts) (a :: b :: '/' :: rest) st = none := by
  simp [runToks, parse4Y_slash]

theorem runToks_dow_slash (ts : List FTok) (a b : Char) (rest : Str) (st : RawParse) :
    runToks (.dowName :: ts) (a :: b :: '/' :: rest) st = none := by
  simp [runToks, parseDow_slash]

theorem daysInMonth_le (y m : Nat) : daysInMonth y m ≤ 31 := by
  unfold daysInMonth
  split
  · split <;> omega
  · split <;> omega

theorem strftimeDMY_expand (y mo dy hr mi se : Nat) (z : Option Int) (hy : 1000 ≤ y) :
    strftimeDMY ⟨y, mo, dy, hr, mi, se, z⟩ =
      digitChar (dy / 10) :: digitChar dy :: '/' :: digitChar (mo / 10) :: digitChar mo :: '/' ::
        digitChar (y / 1000) :: digitChar (y / 100) :: digitChar (y / 10) :: digitChar y ::
        ' ' :: digitChar (hr / 10) :: digitChar hr :: ':' :: digitChar (mi / 10) :: digitChar mi ::
        ':' :: digitChar (se / 10) :: digitChar se :: [] := by
  simp [strftimeDMY, yearField_eq y hy, pad2, natToString4]

theorem string_to_datetime_strftime (y mo dy hr mi se : Nat) (z : Option Int)
    (hy1 : 1000 ≤ y) (hy2 : y ≤ 9999) (hmo1 : 1 ≤ mo) (hmo2 : mo ≤ 12)
    (hdy1 : 1 ≤ dy) (hdy2 : dy ≤ daysInMonth y mo) (hhr : hr ≤ 23) (hmi : mi ≤ 59)
    (hse : se ≤ 59) :
    string_to_datetime (strftimeDMY ⟨y, mo, dy, hr, mi, se, z⟩) =
      some ⟨y, mo, dy, hr, mi, se⟩ := by
  have hdy31 : dy ≤ 31 := le_trans hdy2 (daysInMonth_le y mo)
  have hrun := runToks_dmy_render y mo dy hr mi se hy1 hy2 hmo1 hmo2 hdy1 hdy31 hhr hmi hse
  simp only [pad2, natToString4, List.cons_append, List.nil_append] at hrun
  have hv : rawValid ⟨y, mo, dy, hr, mi, se, none⟩ = true := by
    simp only [rawValid, decide_eq_true_eq]
    exact ⟨by omega, by omega, by omega, by omega, by omega, hdy2, hhr, hmi, hse⟩
  have hok : tryFormat fmtDMY
      (digitChar (dy / 10) :: digitChar dy :: '/' :: digitChar (mo / 10) :: digitChar mo :: '/' ::
        digitChar (y / 1000) :: digitChar (y / 100) :: digitChar (y / 10) :: digitChar y ::
        ' ' :: digitChar (hr / 10) :: digitChar hr :: ':' :: digitChar (mi / 10) :: digitChar mi ::
        ':' :: digitChar (se / 10) :: digitChar se :: []) = some ⟨y, mo, dy, hr, mi, se⟩ := by
    simp only [tryFormat, hrun, hv, if_true,
      strftimeDMY_expand y mo dy hr mi se none hy1, RawParse.toDT]
  rw [strftimeDMY_expand y mo dy hr mi se z hy1]
  have hlast : (digitChar (dy / 10) :: digitChar dy :: '/' :: digitChar (mo / 10) ::
      digitChar mo :: '/' :: digitChar (y / 1000) :: digitChar (y / 100) :: digitChar (y / 10) ::
      digitChar y :: ' ' :: digitChar (hr / 10) :: digitChar hr :: ':' :: digitChar (mi / 10) ::
      digitChar mi :: ':' :: digitChar (se / 10) :: digitChar se :: []).getLast? =
      some (digitChar se) := by
    simp
  have hnp : ¬ digitChar se = ')' := by
    intro h
    have h2 := congrArg Char.toNat h
    rw [toNat_digitChar] at h2
    have h3 : (')' : Char).toNat = 41 := by decide
    rw [h3] at h2
    omega
  have hsuf := not_utcSuffix _ (digitChar se) hlast hnp
  simp only [string_to_datetime, hsuf, Bool.false_eq_true, if_false]
  revert hok
  generalize digitChar (mo / 10) :: digitChar mo :: '/' :: digitChar (y / 1000) ::
    digitChar (y / 100) :: digitChar (y / 10) :: digitChar y :: ' ' :: digitChar (hr / 10) ::
    digitChar hr :: ':' :: digitChar (mi / 10) :: digitChar mi :: ':' :: digitChar (se / 10) ::
    digitChar se :: [] = tail
  intro hok
  have hgy : ∀ ts, tryFormat (FTok.y4 :: ts)
      (digitChar (dy / 10) :: digitChar dy :: '/' :: tail) = none := by
    intro ts
    simp [tryFormat, runToks_y4_slash]
  have hgd : ∀ ts, tryFormat (FTok.dowName :: ts)
      (digitChar (dy / 10) :: digitChar dy :: '/' :: tail) = none := by
    intro ts
    simp [tryFormat, runToks_dow_slash]
  simp only [knownFormats, firstFormat, fmtRFC, fmtYMDsp, fmtYMDslashSp, fmtYMDT, fmtYMDslashT,
    fmtYMD, fmtYMDslash, hgy, hgd, hok]

theorem dropWhile_isWS_head (l : Str) (h1 : ∀ c, l.head? = some c → isWS c = false) :
    l.dropWhile isWS = l := by
  cases l with
  | nil => rfl
  | cons a t => exact List.dropWhile_cons_of_neg (by simp [h1 a rfl])

theorem pyStrip_of_ends (p l : Str) (hp : ∀ c ∈ p, isWS c = true)
    (h1 : ∀ c, l.head? = some c → isWS c = false)
    (h2 : ∀ c, l.getLast? = some c → isWS c = false) : pyStrip (p ++ l) = l := by
  have hfront : (p ++ l).dropWhile isWS = l := by
    induction p with
    | nil => exact dropWhile_isWS_head l h1
    | cons c p ih =>
      rw [List.cons_append, List.dropWhile_cons_of_pos (by simp [hp c (by simp)])]
      exact ih (fun d hd => hp d (by simp [hd]))
  unfold pyStrip
  rw [hfront]
  cases hl : l.reverse with
  | nil =>
    have : l = [] := by simpa using congrArg List.reverse hl
    simp [this]
  | cons b rb =>
    have hb : l.getLast? = some b := by rw [← List.head?_reverse, hl]; rfl
    rw [List.dropWhile_cons_of_neg (by simp [h2 b hb]), ← hl, List.reverse_reverse]

theorem splitOnce_colon (a r : Str) (h : ':' ∉ a) :
    splitOnce [':'] (a ++ ':' :: r) = some (a, r) := by
  induction a with
  | nil =>
    simp only [List.nil_append, splitOnce]
    rw [if_pos ⟨by simp, by simp [List.isPrefixOf]⟩]
    simp
  | cons c a ih =>
    have hc : ¬ c = ':' := fun h' => h (by simp [h'])
    simp only [List.cons_append, splitOnce, List.append_eq]
    rw [if_neg, ih (fun hm => h (by simp [hm]))]
    · rfl
    · rintro ⟨-, hpre⟩
      simp only [List.isPrefixOf, Bool.and_eq_true, beq_iff_eq] at hpre
      exact hc hpre.1.symm

theorem lineStep_flush (a : Str) (dt : DT) (hga : goodAddr a) (hdt : validDT dt) :
    lineStep (' ' :: ' ' :: (a ++ ':' :: ' ' :: strftimeDMY dt.toRaw)) =
      LineRes.entry (a, dt) := by
  obtain ⟨hne, hh, hl, hcol, -⟩ := hga
  cases dt with
  | mk Y MO DY HR MI SE =>
    obtain ⟨hy1, hy2, hmo1, hmo2, hdy1, hdy2, hhr, hmi, hse⟩ := hdt
    have hex : strftimeDMY (DT.toRaw ⟨Y, MO, DY, HR, MI, SE⟩) =
        digitChar (DY / 10) :: digitChar DY :: '/' :: digitChar (MO / 10) :: digitChar MO ::
          '/' :: digitChar (Y / 1000) :: digitChar (Y / 100) :: digitChar (Y / 10) ::
          digitChar Y :: ' ' :: digitChar (HR / 10) :: digitChar HR :: ':' ::
          digitChar (MI / 10) :: digitChar MI :: ':' :: digitChar (SE / 10) ::
          digitChar SE :: [] :=
      strftimeDMY_expand Y MO DY HR MI SE none hy1
    rw [hex]
    have hmidLast : ∀ c, (a ++ ':' :: ' ' :: digitChar (DY / 10) :: digitChar DY :: '/' ::
        digitChar (MO / 10) :: digitChar MO :: '/' :: digitChar (Y / 1000) ::
        digitChar (Y / 100) :: digitChar (Y / 10) :: digitChar Y :: ' ' ::
        digitChar (HR / 10) :: digitChar HR :: ':' :: digitChar (MI / 10) :: digitChar MI ::
        ':' :: digitChar (SE / 10) :: digitChar SE :: []).getLast? = some c → isWS c = false := by
      intro c hc
      rw [List.getLast?_append_of_ne_nil a (by simp)] at hc
      simp only [List.getLast?_cons_cons, List.getLast?_singleton, Option.some.injEq] at hc
      rw [← hc]
      exact isWS_digitChar SE
    have hmidHead : ∀ c, (a ++ ':' :: ' ' :: digitChar (DY / 10) :: digitChar DY :: '/' ::
        digitChar (MO / 10) :: digitChar MO :: '/' :: digitChar (Y / 1000) ::
        digitChar (Y / 100) :: digitChar (Y / 10) :: digitChar Y :: ' ' ::
        digitChar (HR / 10) :: digitChar HR :: ':' :: digitChar (MI / 10) :: digitChar MI ::
        ':' :: digitChar (SE / 10) :: digitChar SE :: []).head? = some c → isWS c = false := by
      intro c hc
      rw [List.head?_append_of_ne_nil a hne] at hc
      exact hh c hc
    have hstrip := pyStrip_of_ends [' ', ' '] _
      (by intro c hc; simp only [List.mem_cons, List.not_mem_nil, or_false] at hc
          rcases hc with h | h <;> (rw [h]; decide))
      hmidHead hmidLast
    unfold lineStep
    rw [show (' ' :: ' ' :: (a ++ ':' :: ' ' :: digitChar (DY / 10) :: digitChar DY :: '/' ::
        digitChar (MO / 10) :: digitChar MO :: '/' :: digitChar (Y / 1000) ::
        digitChar (Y / 100) :: digitChar (Y / 10) :: digitChar Y :: ' ' ::
        digitChar (HR / 10) :: digitChar HR :: ':' :: digitChar (MI / 10) :: digitChar MI ::
        ':' :: digitChar (SE / 10) :: digitChar SE :: [])) =
      ([' ', ' '] ++ (a ++ ':' :: ' ' :: digitChar (DY / 10) :: digitChar DY :: '/' ::
        digitChar (MO / 10) :: digitChar MO :: '/' :: digitChar (Y / 1000) ::
        digitChar (Y / 100) :: digitChar (Y / 10) :: digitChar Y :: ' ' ::
        digitChar (HR / 10) :: digitChar HR :: ':' :: digitChar (MI / 10) :: digitChar MI ::
        ':' :: digitChar (SE / 10) :: digitChar SE :: [])) from rfl, hstrip]
    have hsplit := splitOnce_colon a (' ' :: digitChar (DY / 10) :: digitChar DY :: '/' ::
        digitChar (MO / 10) :: digitChar MO :: '/' :: digitChar (Y / 1000) ::
        digitChar (Y / 100) :: digitChar (Y / 10) :: digitChar Y :: ' ' ::
        digitChar (HR / 10) :: digitChar HR :: ':' :: digitChar (MI / 10) :: digitChar MI ::
        ':' :: digitChar (SE / 10) :: digitChar SE :: []) hcol
    have hsa : pyStrip a = a := pyStrip_of_ends [] a (by intro c hc; cases hc) hh hl
    have hsts : pyStrip (' ' :: digitChar (DY / 10) :: digitChar DY :: '/' ::
        digitChar (MO / 10) :: digitChar MO :: '/' :: digitChar (Y / 1000) ::
        digitChar (Y / 100) :: digitChar (Y / 10) :: digitChar Y :: ' ' ::
        digitChar (HR / 10) :: digitChar HR :: ':' :: digitChar (MI / 10) :: digitChar MI ::
        ':' :: digitChar (SE / 10) :: digitChar SE :: []) =
        digitChar (DY / 10) :: digitChar DY :: '/' ::
        digitChar (MO / 10) :: digitChar MO :: '/' :: digitChar (Y / 1000) ::
        digitChar (Y / 100) :: digitChar (Y / 10) :: digitChar Y :: ' ' ::
        digitChar (HR / 10) :: digitChar HR :: ':' :: digitChar (MI / 10) :: digitChar MI ::
        ':' :: digitChar (SE / 10) :: digitChar SE :: [] := by
      have := pyStrip_of_ends [' '] (digitChar (DY / 10) :: digitChar DY :: '/' ::
        digitChar (MO / 10) :: digitChar MO :: '/' :: digitChar (Y / 1000) ::
        digitChar (Y / 100) :: digitChar (Y / 10) :: digitChar Y :: ' ' ::
        digitChar (HR / 10) :: digitChar HR :: ':' :: digitChar (MI / 10) :: digitChar MI ::
        ':' :: digitChar (SE / 10) :: digitChar SE :: [])
        (by intro c hc; simp only [List.mem_singleton] at hc; rw [hc]; decide)
        (by intro c hc
            simp only [List.head?_cons, Option.some.injEq] at hc
            rw [← hc]; exact isWS_digitChar _)
        (by intro c hc
            simp only [List.getLast?_cons_cons, List.getLast?_singleton,
              Option.some.injEq] at hc
            rw [← hc]; exact isWS_digitChar SE)
      simpa using this
    have hstd : string_to_datetime (digitChar (DY / 10) :: digitChar DY :: '/' ::
        digitChar (MO / 10) :: digitChar MO :: '/' :: digitChar (Y / 1000) ::
        digitChar (Y / 100) :: digitChar (Y / 10) :: digitChar Y :: ' ' ::
        digitChar (HR / 10) :: digitChar HR :: ':' :: digitChar (MI / 10) :: digitChar MI ::
        ':' :: digitChar (SE / 10) :: digitChar SE :: []) = some ⟨Y, MO, DY, HR, MI, SE⟩ := by
      rw [← strftimeDMY_expand Y MO DY HR MI SE none hy1]
      exact string_to_datetime_strftime Y MO DY HR MI SE none hy1 hy2 hmo1 hmo2 hdy1 hdy2
        hhr hmi hse
    simp only [hsplit, hsa, hsts, hstd]

theorem strftimeDMY_ne_nil (r : RawParse) : strftimeDMY r ≠ [] := by
  simp [strftimeDMY, pad2]

theorem flushmap (entries : List LedgerEntry) (h : ∀ e ∈ entries, e.1 ≠ []) :
    (entries.map (fun e => (e.1, strftimeDMY e.2.toRaw))).filterMap (fun p =>
      if p.1 ≠ [] ∧ p.2 ≠ [] then some (' ' :: ' ' :: (p.1 ++ ':' :: ' ' :: p.2)) else none) =
    entries.map (fun e => ' ' :: ' ' :: (e.1 ++ ':' :: ' ' :: strftimeDMY e.2.toRaw)) := by
  induction entries with
  | nil => rfl
  | cons e es ih =>
    simp only [List.map_cons, List.filterMap_cons]
    rw [if_pos ⟨h e (by simp), strftimeDMY_ne_nil _⟩]
    rw [ih (fun x hx => h x (by simp [hx]))]

theorem loadEntries_flush (entries : List LedgerEntry)
    (h : ∀ e ∈ entries, goodAddr e.1 ∧ validDT e.2) :
    ∀ acc, loadEntries (entries.map (fun e =>
      ' ' :: ' ' :: (e.1 ++ ':' :: ' ' :: strftimeDMY e.2.toRaw))) acc =
      LoadRes.ok (acc ++ entries) := by
  induction entries with
  | nil => intro acc; simp [loadEntries]
  | cons e es ih =>
    intro acc
    have hstep := lineStep_flush e.1 e.2 (h e (by simp)).1 (h e (by simp)).2
    have ihh := ih (fun x hx => h x (by simp [hx])) (acc ++ [(e.1, e.2)])
    simp only [List.map_cons, loadEntries, hstep, ihh]
    simp

/-- C9: starting from an empty ledger, appending a list of well-formed
    (address, timestamp) entries in memory, flushing them to durable
    storage with `add_to_waiting_list`, and loading the file back with
    `update_sent_mails_waiting_for_answer_from_file` reproduces exactly
    the same (address, timestamp) list — the textual
    `%d/%m/%Y %H:%M:%S` serialisation is normalized away by the load's
    parser. -/
theorem c9_roundtrip (entries : List LedgerEntry)
    (h : ∀ e ∈ entries, goodAddr e.1 ∧ validDT e.2) :
    flushLoad entries = LoadRes.ok entries := by
  unfold flushLoad update_sent_mails_from_file add_to_waiting_list
  simp only [List.nil_append]
  rw [flushmap entries (fun e he => (h e he).1.1)]
  simpa using loadEntries_flush entries h []

/-- Witness for C9 at two concrete entries. -/
theorem c9_roundtrip_witness :
    flushLoad [("a@x.com".data, ⟨2023, 10, 23, 10, 0, 0⟩),
               ("b@y.org".data, ⟨2024, 2, 29, 23, 59, 58⟩)] =
      LoadRes.ok [("a@x.com".data, ⟨2023, 10, 23, 10, 0, 0⟩),
                  ("b@y.org".data, ⟨2024, 2, 29, 23, 59, 58⟩)] :=
  c9_roundtrip _ (by decide)

theorem parseWS1_cons (c : Char) (rest : Str) (hc : isWS c = false) :
    parseWS1 (' ' :: c :: rest) = some (c :: rest) := by
  simp only [parseWS1]
  rw [if_pos (by decide), List.dropWhile_cons_of_neg (by simp [hc])]

theorem parseDow_mon (rest : Str) : parseDow ('M' :: 'o' :: 'n' :: rest) = some rest := rfl

theorem parseWS1_monStr (m : Nat) (h1 : 1 ≤ m) (h2 : m ≤ 12) (rest : Str) :
    parseWS1 (' ' :: (monStr m ++ rest)) = some (monStr m ++ rest) := by
  interval_cases m <;> exact parseWS1_cons _ _ (by decide)

theorem parseMonName_monStr (m : Nat) (h1 : 1 ≤ m) (h2 : m ≤ 12) (rest : Str) :
    parseMonName (monStr m ++ rest) = some (m, rest) := by
  interval_cases m <;> rfl

theorem parseWS1_nat4 (y : Nat) (rest : Str) :
    parseWS1 (' ' :: (natToString4 y ++ rest)) = some (natToString4 y ++ rest) := by
  simp only [natToString4, List.cons_append, List.nil_append]
  exact parseWS1_cons _ _ (isWS_digitChar _)

theorem parseWS1_sign (zneg : Bool) (rest : Str) :
    parseWS1 (' ' :: (if zneg then '-' else '+') :: rest) =
      some ((if zneg then '-' else '+') :: rest) := by
  cases zneg <;> exact parseWS1_cons _ _ (by decide)

theorem parseZone_pad (zneg : Bool) (zh zm : Nat) (hzh : zh ≤ 23) (hzm : zm ≤ 59) :
    ∃ zv, parseZone ((if zneg then '-' else '+') :: (pad2 zh ++ pad2 zm)) = some (zv, []) := by
  cases zneg <;> (interval_cases zh <;> interval_cases zm <;> exact ⟨_, rfl⟩)

theorem getLastQ_cons_of_ne_nil (a : Char) (l : Str) (h : l ≠ []) :
    (a :: l).getLast? = l.getLast? := by
  cases l with
  | nil => exact absurd rfl h
  | cons b t => exact List.getLast?_cons_cons

theorem runToks_rfc_render (Y MO DY HR MI SE : Nat) (zneg : Bool) (zh zm : Nat)
    (hy1 : 1000 ≤ Y) (hy2 : Y ≤ 9999) (hmo1 : 1 ≤ MO) (hmo2 : MO ≤ 12)
    (hdy1 : 1 ≤ DY) (hdy2 : DY ≤ 31) (hhr : HR ≤ 23) (hmi : MI ≤ 59) (hse : SE ≤ 59)
    (hzh : zh ≤ 23) (hzm : zm ≤ 59) :
    ∃ zc, runToks fmtRFC (rfc2822Str ⟨Y, MO, DY, HR, MI, SE⟩ zneg zh zm) initRaw =
      some ⟨Y, MO, DY, HR, MI, SE, some zc⟩ := by
  obtain ⟨zv, hz⟩ := parseZone_pad zneg zh zm hzh hzm
  refine ⟨zv, ?_⟩
  have hdw := parseDow_mon (',' :: ' ' :: pad2 DY ++ ' ' :: monStr MO ++
    ' ' :: natToString4 Y ++ ' ' :: pad2 HR ++ ':' :: pad2 MI ++ ':' :: pad2 SE ++
    ' ' :: (if zneg then '-' else '+') :: (pad2 zh ++ pad2 zm))
  have hw1 := parseWS1_sp_pad DY (' ' :: monStr MO ++ ' ' :: natToString4 Y ++
    ' ' :: pad2 HR ++ ':' :: pad2 MI ++ ':' :: pad2 SE ++
    ' ' :: (if zneg then '-' else '+') :: (pad2 zh ++ pad2 zm))
  have hd1 := parseDay2_pad DY hdy1 hdy2 (' ' :: monStr MO ++ ' ' :: natToString4 Y ++
    ' ' :: pad2 HR ++ ':' :: pad2 MI ++ ':' :: pad2 SE ++
    ' ' :: (if zneg then '-' else '+') :: (pad2 zh ++ pad2 zm))
  have hw2 := parseWS1_monStr MO hmo1 hmo2 (' ' :: natToString4 Y ++
    ' ' :: pad2 HR ++ ':' :: pad2 MI ++ ':' :: pad2 SE ++
    ' ' :: (if zneg then '-' else '+') :: (pad2 zh ++ pad2 zm))
  have hmn := parseMonName_monStr MO hmo1 hmo2 (' ' :: natToString4 Y ++
    ' ' :: pad2 HR ++ ':' :: pad2 MI ++ ':' :: pad2 SE ++
    ' ' :: (if zneg then '-' else '+') :: (pad2 zh ++ pad2 zm))
  have hw3 := parseWS1_nat4 Y (' ' :: pad2 HR ++ ':' :: pad2 MI ++ ':' :: pad2 SE ++
    ' ' :: (if zneg then '-' else '+') :: (pad2 zh ++ pad2 zm))
  have hy := parse4Y_pad Y hy2 (' ' :: pad2 HR ++ ':' :: pad2 MI ++ ':' :: pad2 SE ++
    ' ' :: (if zneg then '-' else '+') :: (pad2 zh ++ pad2 zm))
  have hw4 := parseWS1_sp_pad HR (':' :: pad2 MI ++ ':' :: pad2 SE ++
    ' ' :: (if zneg then '-' else '+') :: (pad2 zh ++ pad2 zm))
  have hh1 := parseHour2_pad HR hhr (':' :: pad2 MI ++ ':' :: pad2 SE ++
    ' ' :: (if zneg then '-' else '+') :: (pad2 zh ++ pad2 zm))
  have hm1 := parseMin2_pad MI hmi (':' :: pad2 SE ++
    ' ' :: (if zneg then '-' else '+') :: (pad2 zh ++ pad2 zm))
  have hs1 := parseSec2_pad SE hse
    (' ' :: (if zneg then '-' else '+') :: (pad2 zh ++ pad2 zm))
  have hw5 := parseWS1_sign zneg (pad2 zh ++ pad2 zm)
  simp only [pad2, natToString4, List.cons_append, List.nil_append, List.append_assoc]
    at hdw hw1 hd1 hw2 hmn hw3 hy hw4 hh1 hm1 hs1 hw5 hz
  simp only [rfc2822Str, pad2, natToString4, List.cons_append, List.nil_append,
    List.append_assoc]
  simp only [fmtRFC, runToks, hdw, hw1, hd1, hw2, hmn, hw3, hy, hw4, hh1, hm1, hs1, hw5, hz]
  simp [initRaw]

theorem std_rfc (d : DT) (zneg : Bool) (zh zm : Nat) (hd : validDT d)
    (hzh : zh ≤ 23) (hzm : zm ≤ 59) :
    string_to_datetime (rfc2822Str d zneg zh zm) = some d := by
  cases d with
  | mk Y MO DY HR MI SE =>
    simp only [validDT] at hd
    obtain ⟨hy1, hy2, hmo1, hmo2, hdy1, hdy2, hhr, hmi, hse⟩ := hd
    have hdy31 : DY ≤ 31 := le_trans hdy2 (daysInMonth_le Y MO)
    obtain ⟨zc, hrun⟩ := runToks_rfc_render Y MO DY HR MI SE zneg zh zm
      hy1 hy2 hmo1 hmo2 hdy1 hdy31 hhr hmi hse hzh hzm
    have hv : rawValid ⟨Y, MO, DY, HR, MI, SE, some zc⟩ = true := by
      simp only [rawValid, decide_eq_true_eq]
      exact ⟨by omega, by omega, by omega, by omega, by omega, hdy2, hhr, hmi, hse⟩
    have hv2 : rawValid ⟨Y, MO, DY, HR, MI, SE, none⟩ = true := by
      simp only [rawValid, decide_eq_true_eq]
      exact ⟨by omega, by omega, by omega, by omega, by omega, hdy2, hhr, hmi, hse⟩
    have hdmy := runToks_dmy_render Y MO DY HR MI SE hy1 hy2 hmo1 hmo2 hdy1 hdy31 hhr hmi hse
    simp only [pad2, natToString4, List.cons_append, List.nil_append] at hdmy
    have htry : tryFormat fmtRFC (rfc2822Str ⟨Y, MO, DY, HR, MI, SE⟩ zneg zh zm) =
        some ⟨Y, MO, DY, HR, MI, SE⟩ := by
      simp only [tryFormat, hrun, hv, if_true,
        strftimeDMY_expand Y MO DY HR MI SE (some zc) hy1, hdmy, hv2, RawParse.toDT]
    have hlast : (rfc2822Str ⟨Y, MO, DY, HR, MI, SE⟩ zneg zh zm).getLast? =
        some (digitChar zm) := by
      simp only [rfc2822Str, pad2, natToString4, List.cons_append, List.nil_append,
        List.append_assoc]
      simp [getLastQ_cons_of_ne_nil, List.getLast?_append_of_ne_nil]
    have hnp : ¬ digitChar zm = ')' := by
      intro h
      have h2 := congrArg Char.toNat h
      rw [toNat_digitChar] at h2
      have h3 : (')' : Char).toNat = 41 := by decide
      rw [h3] at h2
      omega
    have hsuf := not_utcSuffix _ (digitChar zm) hlast hnp
    simp only [string_to_datetime, hsuf, Bool.false_eq_true, if_false]
    simp only [knownFormats, firstFormat, htry]

/-- C10: for every valid datetime and numeric zone offset, parsing the
    RFC-2822 rendering through `string_to_datetime` yields exactly the
    literal (timezone-naive, whole-second) components — the offset is
    discarded rather than converted, so the result does not depend on the
    zone at all; consequently the classifier, which compares these naive
    datetimes, is invariant under the zone of the receipt-time string. -/
theorem c10_naive_datetime (d : DT) (zneg : Bool) (zh zm : Nat) (hd : validDT d)
    (hzh : zh ≤ 23) (hzm : zm ≤ 59) :
    string_to_datetime (rfc2822Str d zneg zh zm) = some d ∧
    (∀ ledger sender,
      check_email_response_status ledger sender (rfc2822Str d zneg zh zm) =
        check_email_response_status ledger sender (rfc2822Str d false 0 0)) := by
  refine ⟨std_rfc d zneg zh zm hd hzh hzm, ?_⟩
  intro ledger sender
  unfold check_email_response_status
  rw [std_rfc d zneg zh zm hd hzh hzm, std_rfc d false 0 0 hd (by omega) (by omega)]

/-- Witness for C10: a `+0500` offset and a `+0000` offset on the same
    components parse to the same naive datetime, and classification at a
    concrete ledger is unchanged by the zone. -/
theorem c10_naive_datetime_witness :
    string_to_datetime (rfc2822Str ⟨2023, 10, 23, 22, 22, 38⟩ false 5 0) =
      some ⟨2023, 10, 23, 22, 22, 38⟩ ∧
    check_email_response_status [("a@x.com".data, ⟨2023, 10, 23, 10, 0, 0⟩)] "a@x.com".data
        (rfc2822Str ⟨2023, 10, 23, 22, 22, 38⟩ false 5 0) =
      check_email_response_status [("a@x.com".data, ⟨2023, 10, 23, 10, 0, 0⟩)] "a@x.com".data
        (rfc2822Str ⟨2023, 10, 23, 22, 22, 38⟩ false 0 0) := by
  constructor
  · exact (c10_naive_datetime ⟨2023, 10, 23, 22, 22, 38⟩ false 5 0 (by decide) (by decide)
      (by decide)).1
  · exact (c10_naive_datetime ⟨2023, 10, 23, 22, 22, 38⟩ false 5 0 (by decide) (by decide)
      (by decide)).2 [("a@x.com".data, ⟨2023, 10, 23, 10, 0, 0⟩)] "a@x.com".data
